import Mathlib

/-!
Shallow embedding of the multiplayer arena server (`src/server.js`) and
verification of the frozen claims about it.

Modelling conventions:
* All JS numbers are modelled as `ℚ` (timestamps in milliseconds included).
* The float library's transcendental functions (`Math.sqrt`, `Math.cos`,
  `Math.sin`, `Math.atan2`, `Math.hypot`) are abstracted as an `Env`
  parameter: every theorem is quantified over the environment, so the
  results hold whatever values those functions return.
* Nondeterminism (`Math.random()`, `uuidv4()`, the hsl colour template
  string) is modelled by explicit streams in an `Ext` record together with
  a draw counter `k : ℕ` threaded through every function that draws,
  in source order.
* JS loops of the form `for (let i = arr.length - 1; i >= 0; i--)` with
  `splice` are translated as structural recursions that process the tail
  of the list first (the tail holds the higher indices, which the JS loop
  visits first).
* `room.players` is a `Record<string, Player>`; it is modelled as an
  association list in insertion order (JS objects with string keys
  enumerate in insertion order).
-/

namespace Arena

/-- Abstract float-library functions used by the server
(`Math.sqrt`, `Math.cos`, `Math.sin`, `Math.atan2`, `Math.hypot`). -/
structure Env where
  sqrtQ : ℚ → ℚ
  cosQ : ℚ → ℚ
  sinQ : ℚ → ℚ
  atan2Q : ℚ → ℚ → ℚ
  hypotQ : ℚ → ℚ → ℚ
  piQ : ℚ

/-- External nondeterminism: `rand k` is the `k`-th `Math.random()` draw,
`uuid k` the `k`-th `uuidv4()` result, `hsl h` the colour template string
`hsl(h, 70%, 55%)`. -/
structure Ext where
  rand : ℕ → ℚ
  uuid : ℕ → String
  hsl : ℤ → String

/-- `const WORLD = { width: 2400, height: 1800 }` -/
structure World where
  width : ℚ
  height : ℚ
  deriving DecidableEq, Repr

def WORLD : World := { width := 2400, height := 1800 }

def TICK_RATE : ℚ := 60
def PLAYER_RADIUS : ℚ := 16
def PLAYER_SPEED : ℚ := 240
def BULLET_SPEED : ℚ := 620
def BULLET_RADIUS : ℚ := 4
def BULLET_LIFETIME_MS : ℚ := 1200

/-- Monster type tags (the six keys of `ENEMY_TYPES`). -/
inductive EType where
  | chaser | dasher | orbiter | splitter | sniper | mini
  deriving DecidableEq, Repr

/-- One entry of `ENEMY_TYPES`. -/
structure ESpec where
  radius : ℚ
  baseHp : ℚ
  baseSpeed : ℚ
  deriving DecidableEq, Repr

def ENEMY_TYPES : EType → ESpec
  | .chaser => { radius := 16, baseHp := 3, baseSpeed := 120 }
  | .dasher => { radius := 18, baseHp := 4, baseSpeed := 90 }
  | .orbiter => { radius := 14, baseHp := 3, baseSpeed := 130 }
  | .splitter => { radius := 16, baseHp := 2, baseSpeed := 100 }
  | .sniper => { radius := 15, baseHp := 2, baseSpeed := 110 }
  | .mini => { radius := 10, baseHp := 1, baseSpeed := 170 }

-- Utilities (`server.js` lines 36-43)

/-- `function clamp(value, min, max) { return Math.max(min, Math.min(max, value)); }` -/
def clamp (value lo hi : ℚ) : ℚ := max lo (min hi value)

/-- `function dist(x1,y1,x2,y2) { return Math.hypot(x2-x1, y2-y1); }` -/
def distQ (env : Env) (x1 y1 x2 y2 : ℚ) : ℚ := env.hypotQ (x2 - x1) (y2 - y1)

/-- `function length(x, y) { return Math.hypot(x, y); }` -/
def lengthQ (env : Env) (x y : ℚ) : ℚ := env.hypotQ x y

/-- `function normalize(x, y)` -/
def normalizeQ (env : Env) (x y : ℚ) : ℚ × ℚ :=
  let l := lengthQ env x y
  if l = 0 then (0, 0) else (x / l, y / l)

/-- `function lerp(a, b, t) { return a + (b - a) * t; }` -/
def lerp (a b t : ℚ) : ℚ := a + (b - a) * t

/-- `function randomInWorld()` — consumes two `Math.random()` draws; the
source always reads the global `WORLD` here, never `room.world`. -/
def randomInWorld (ext : Ext) (k : ℕ) : (ℚ × ℚ) × ℕ :=
  ((ext.rand k * WORLD.width, ext.rand (k + 1) * WORLD.height), k + 2)

/-- `function circleCollide(x1,y1,r1,x2,y2,r2)` — exact squared-distance test. -/
def circleCollide (x1 y1 r1 x2 y2 r2 : ℚ) : Bool :=
  let dx := x1 - x2
  let dy := y1 - y2
  let rr := r1 + r2
  decide (dx * dx + dy * dy ≤ rr * rr)

/-- `function choice(arr) { return arr[(Math.random() * arr.length) | 0]; }`;
the draw `r` is the `Math.random()` value. -/
def choice (arr : List α) (dflt : α) (r : ℚ) : α :=
  arr.getD (Int.toNat ⌊r * (arr.length : ℚ)⌋) dflt

/-- JS `Math.round` (round half toward positive infinity). -/
def roundQ (x : ℚ) : ℤ := ⌊x + 1/2⌋

-- Data model

/-- `buffs: { speed: 1, firerate: 1, multishot: 1, shieldUntil: 0 }` -/
structure Buffs where
  speed : ℚ
  firerate : ℚ
  multishot : ℕ
  shieldUntil : ℚ
  deriving DecidableEq, Repr

/-- `abilityCd: { burst: 0, dash: 0, grenade: 0, beam: 0 }` -/
structure AbilityCd where
  burst : ℚ
  dash : ℚ
  grenade : ℚ
  beam : ℚ
  deriving DecidableEq, Repr

structure Player where
  id : String
  x : ℚ
  y : ℚ
  dirX : ℚ
  dirY : ℚ
  up : Bool
  down : Bool
  left : Bool
  right : Bool
  shooting : Bool
  lastShotAt : ℚ
  color : String
  kills : ℤ
  radius : ℚ
  buffs : Buffs
  abilityCd : AbilityCd
  dashingUntil : ℚ
  iFramesUntil : ℚ
  deriving DecidableEq, Repr

/-- The dasher's two-phase state tag. -/
inductive DashMode where
  | windup | dash
  deriving DecidableEq, Repr

/-- The per-monster dynamic behaviour-state bag `state: {}`.
`mode = none` models the initially-absent `st.mode` field; the numeric
fields start at 0 (absent fields only ever read through falsy checks or
`|| 0`). -/
structure MState where
  mode : Option DashMode
  timer : ℚ
  dx : ℚ
  dy : ℚ
  cool : ℚ
  seed : ℚ
  deriving DecidableEq, Repr

def MState.empty : MState :=
  { mode := none, timer := 0, dx := 0, dy := 0, cool := 0, seed := 0 }

structure Monster where
  id : String
  type : EType
  x : ℚ
  y : ℚ
  vx : ℚ
  vy : ℚ
  radius : ℚ
  hp : ℚ
  maxHp : ℚ
  baseSpeed : ℚ
  state : MState
  deriving DecidableEq, Repr

structure Bullet where
  id : String
  x : ℚ
  y : ℚ
  vx : ℚ
  vy : ℚ
  createdAt : ℚ
  ownerId : String
  radius : ℚ
  deriving DecidableEq, Repr

structure Neutral where
  id : String
  x : ℚ
  y : ℚ
  r : ℚ
  hp : ℚ
  maxHp : ℚ
  vx : ℚ
  vy : ℚ
  wanderT : ℚ
  deriving DecidableEq, Repr

inductive PType where
  | speed | firerate | multishot | heal | shield
  deriving DecidableEq, Repr

structure Powerup where
  id : String
  type : PType
  x : ℚ
  y : ℚ
  r : ℚ
  expiresAt : ℚ
  deriving DecidableEq, Repr

structure Bomb where
  id : String
  x : ℚ
  y : ℚ
  vx : ℚ
  vy : ℚ
  explodeAt : ℚ
  radius : ℚ
  ownerId : String
  deriving DecidableEq, Repr

/-- Transient visual effects; `etype` is the `type` string
("dash" | "beam" | "explosion"); `untilMs` is the source's `until` field
(`until` is reserved in Lean); unused coordinate fields default to 0. -/
structure Effect where
  id : String
  etype : String
  x1 : ℚ := 0
  y1 : ℚ := 0
  x2 : ℚ := 0
  y2 : ℚ := 0
  x : ℚ := 0
  y : ℚ := 0
  r : ℚ := 0
  untilMs : ℚ
  deriving DecidableEq, Repr

structure Settings where
  maxPlayers : ℕ
  difficulty : String
  deriving DecidableEq, Repr

/-- `room.players` as an insertion-ordered association list keyed by socket id. -/
abbrev Players := List (String × Player)

structure Room where
  id : String
  settings : Settings
  players : Players
  bullets : List Bullet
  monsters : List Monster
  neutrals : List Neutral
  powerups : List Powerup
  bombs : List Bomb
  effects : List Effect
  lastSpawnAt : ℚ
  lastPowerAt : ℚ
  lastNeutralAt : ℚ
  world : World
  deriving DecidableEq, Repr

-- Association-list helpers for `room.players` and the room registry.

def lookupP (ps : Players) (pid : String) : Option Player :=
  match ps with
  | [] => none
  | (i, p) :: rest => if i = pid then some p else lookupP rest pid

/-- `room.players[id] = p` — overwrite in place if present, else append
(JS object key insertion order). -/
def setP (ps : Players) (pid : String) (p : Player) : Players :=
  match ps with
  | [] => [(pid, p)]
  | (i, q) :: rest => if i = pid then (i, p) :: rest else (i, q) :: setP rest pid p

/-- `delete room.players[id]`. -/
def delP (ps : Players) (pid : String) : Players :=
  match ps with
  | [] => []
  | (i, q) :: rest => if i = pid then rest else (i, q) :: delP rest pid

/-- Apply `f` to the player stored under `pid`, if present. -/
def updateP (ps : Players) (pid : String) (f : Player → Player) : Players :=
  match ps with
  | [] => []
  | (i, q) :: rest => if i = pid then (i, f q) :: rest else (i, q) :: updateP rest pid f

/-- `function countPlayers(room) { return Object.keys(room.players).length; }` -/
def countPlayers (room : Room) : ℕ := room.players.length

/-- `function scaleForPlayers(room)` -/
def scaleForPlayers (room : Room) : ℕ × ℚ :=
  let n := max 1 (countPlayers room)
  let f := 1 + (35 / 100 : ℚ) * ((n : ℚ) - 1)
  (n, f)

def MONSTER_MAX_BASE : ℕ := 16

/-- `function spawnMonster(room, type)` — `typeArg = none` models the
`type` parameter being `undefined` (random choice drawn).  Draw order:
position (2), type choice (1 when `typeArg` absent), `uuidv4` (1). -/
def spawnMonster (env : Env) (ext : Ext) (room : Room) (typeArg : Option EType)
    (k : ℕ) : Room × ℕ :=
  let n := (scaleForPlayers room).1
  let cap := MONSTER_MAX_BASE + (n - 1) * 10
  if room.monsters.length ≥ cap then (room, k) else
  let (pos, k1) := randomInWorld ext k
  let (chosenType, k2) :=
    match typeArg with
    | some t => (t, k1)
    | none => (choice [EType.chaser, EType.dasher, EType.orbiter, EType.splitter,
        EType.sniper] EType.chaser (ext.rand k1), k1 + 1)
  let spec := ENEMY_TYPES chosenType
  let factor := (scaleForPlayers room).2
  let hp := (roundQ (spec.baseHp * env.sqrtQ factor) : ℚ)
  ({ room with monsters := room.monsters ++
      [{ id := ext.uuid k2, type := chosenType, x := pos.1, y := pos.2,
         vx := 0, vy := 0, radius := spec.radius, hp := hp, maxHp := hp,
         baseSpeed := spec.baseSpeed * (75 / 100 + 25 / 100 * factor),
         state := MState.empty }] }, k2 + 1)

/-- `function spawnNeutral(room)` — draws: position (2), uuid (1), wanderT (1). -/
def spawnNeutral (ext : Ext) (room : Room) (k : ℕ) : Room × ℕ :=
  if room.neutrals.length ≥ 12 then (room, k) else
  let (pos, k1) := randomInWorld ext k
  ({ room with neutrals := room.neutrals ++
      [{ id := ext.uuid k1, x := pos.1, y := pos.2, r := 12, hp := 2, maxHp := 2,
         vx := 0, vy := 0, wanderT := ext.rand (k1 + 1) * 3 }] }, k1 + 2)

/-- `function spawnPowerup(room)` — the source stamps `Date.now() + 45_000`;
`now` stands for that `Date.now()` call.  Draws: position (2), type (1),
uuid (1). -/
def spawnPowerup (ext : Ext) (room : Room) (now : ℚ) (k : ℕ) : Room × ℕ :=
  if room.powerups.length ≥ 8 then (room, k) else
  let (pos, k1) := randomInWorld ext k
  let type := choice [PType.speed, PType.firerate, PType.multishot, PType.heal,
      PType.shield] PType.speed (ext.rand k1)
  ({ room with powerups := room.powerups ++
      [{ id := ext.uuid (k1 + 1), type := type, x := pos.1, y := pos.2, r := 12,
         expiresAt := now + 45000 }] }, k1 + 2)

-- Shooting and monster AI

/-- `function tryShoot(room, p, now)` — returns the updated player, the
bullets pushed onto `room.bullets`, and the next draw counter (one
`uuidv4` per bullet). -/
def tryShoot (env : Env) (ext : Ext) (p : Player) (now : ℚ) (k : ℕ) :
    Player × List Bullet × ℕ :=
  let SHOT_COOLDOWN_MS := (160 : ℚ) / p.buffs.firerate
  if !p.shooting then (p, [], k)
  else if now - p.lastShotAt < SHOT_COOLDOWN_MS then (p, [], k)
  else
    let count := p.buffs.multishot
    let spread := min (35 / 100 : ℚ) (8 / 100 * ((count : ℚ) - 1))
    let mkB : ℕ → Bullet := fun i =>
      let t : ℚ := if count = 1 then 0 else ((i : ℚ) / ((count : ℚ) - 1)) * 2 - 1
      let angle := env.atan2Q p.dirY p.dirX + spread * t
      let dirX := env.cosQ angle
      let dirY := env.sinQ angle
      { id := ext.uuid (k + i),
        x := p.x + dirX * (PLAYER_RADIUS + BULLET_RADIUS + 1),
        y := p.y + dirY * (PLAYER_RADIUS + BULLET_RADIUS + 1),
        vx := dirX * BULLET_SPEED, vy := dirY * BULLET_SPEED,
        createdAt := now, ownerId := p.id, radius := BULLET_RADIUS }
    ({ p with lastShotAt := now }, (List.range count).map mkB, k + count)

/-- `function nearestPlayer(room, from)` — the initial best distance is
`Infinity`, so the first player enumerated always becomes the candidate. -/
def nearestPlayer (env : Env) (ps : Players) (fromX fromY : ℚ) : Option Player :=
  (ps.foldl (fun acc pr =>
      let d := distQ env fromX fromY pr.2.x pr.2.y
      match acc with
      | none => some (pr.2, d)
      | some (q, best) => if d < best then some (pr.2, d) else some (q, best))
    none).map Prod.fst

/-- The `// Keep in bounds` clamp at the end of the `updateEnemies`
loop body (`server.js` lines 330-332). -/
def clampMon (w : World) (m : Monster) : Monster :=
  { m with x := clamp m.x m.radius (w.width - m.radius),
           y := clamp m.y m.radius (w.height - m.radius) }

/-- The per-type AI movement switch of the `updateEnemies` loop body
(`server.js` lines 253-328), against the nearest player `p`. -/
def aiMove (env : Env) (ext : Ext) (p : Player) (dt now : ℚ)
    (m : Monster) (k : ℕ) : Monster × ℕ :=
    let speed := m.baseSpeed
    match m.type with
      | .chaser =>
        let toT := normalizeQ env (p.x - m.x) (p.y - m.y)
        let vx := lerp m.vx (toT.1 * speed) (8 / 100)
        let vy := lerp m.vy (toT.2 * speed) (8 / 100)
        ({ m with vx := vx, vy := vy, x := m.x + vx * dt, y := m.y + vy * dt }, k)
      | .dasher =>
        let st0 := m.state
        let st1 := if st0.mode = none then { st0 with mode := some .windup, timer := 0 } else st0
        let st2 := { st1 with timer := st1.timer + dt }
        if st2.mode = some DashMode.windup then
          let toT := normalizeQ env (p.x - m.x) (p.y - m.y)
          let tangent := (-toT.2, toT.1)
          let x := m.x + (toT.1 * 40 + tangent.1 * 70) * dt
          let y := m.y + (toT.2 * 40 + tangent.2 * 70) * dt
          let st3 :=
            if st2.timer > 8 / 10 then
              let dir := normalizeQ env (p.x - x) (p.y - y)
              { st2 with mode := some .dash, timer := 0, dx := dir.1, dy := dir.2 }
            else st2
          ({ m with x := x, y := y, state := st3 }, k)
        else
          let dashSpeed := speed * (32 / 10)
          let x := m.x + st2.dx * dashSpeed * dt
          let y := m.y + st2.dy * dashSpeed * dt
          let st3 := if st2.timer > 28 / 100 then { st2 with mode := some .windup, timer := 0 } else st2
          ({ m with x := x, y := y, state := st3 }, k)
      | .orbiter =>
        -- `st.seed || 0`: `seed` is never assigned anywhere, so it is 0.
        let desired := 160 + 40 * env.sinQ (now / 500 + m.state.seed)
        let d := distQ env m.x m.y p.x p.y
        let toT := normalizeQ env (p.x - m.x) (p.y - m.y)
        let tangent := (-toT.2, toT.1)
        let inward := d - desired
        ({ m with x := m.x + (tangent.1 * speed + toT.1 * (-inward * (8 / 10))) * dt,
                  y := m.y + (tangent.2 * speed + toT.2 * (-inward * (8 / 10))) * dt }, k)
      | .splitter =>
        -- `if (!st.cool) st.cool = 0;` is the identity on a numeric field.
        let cool0 := if m.state.cool = 0 then 0 else m.state.cool
        let cool1 := cool0 - dt
        let (vx, vy, cool2, k') :=
          if cool1 ≤ 0 then
            let toT := normalizeQ env (p.x - m.x) (p.y - m.y)
            let rnd := normalizeQ env (ext.rand k - 1 / 2) (ext.rand (k + 1) - 1 / 2)
            ((toT.1 * (8 / 10) + rnd.1 * (4 / 10)) * speed * 2,
             (toT.2 * (8 / 10) + rnd.2 * (4 / 10)) * speed * 2, (6 / 10 : ℚ), k + 2)
          else (m.vx, m.vy, cool1, k)
        ({ m with x := m.x + vx * dt, y := m.y + vy * dt,
                  vx := vx * (86 / 100), vy := vy * (86 / 100),
                  state := { (m.state) with cool := cool2 } }, k')
      | .sniper =>
        let d := distQ env m.x m.y p.x p.y
        let toT := normalizeQ env (p.x - m.x) (p.y - m.y)
        let tangent := (-toT.2, toT.1)
        let desired := (420 : ℚ)
        let away := desired - d
        ({ m with x := m.x + (tangent.1 * speed * (11 / 10) + toT.1 * (-away * (8 / 10))) * dt,
                  y := m.y + (tangent.2 * speed * (11 / 10) + toT.2 * (-away * (8 / 10))) * dt }, k)
      | .mini =>
        let toT := normalizeQ env (p.x - m.x) (p.y - m.y)
        ({ m with x := m.x + toT.1 * speed * dt, y := m.y + toT.2 * speed * dt }, k)

/-- One iteration of the `updateEnemies` loop body for monster `m`
(`server.js` lines 247-333): AI movement against the nearest player then
the in-bounds clamp.  When the room has no players
(`if (!p) continue;`) the monster is untouched and the clamp too is
skipped. -/
def stepEnemy (env : Env) (ext : Ext) (ps : Players) (w : World) (dt now : ℚ)
    (m : Monster) (k : ℕ) : Monster × ℕ :=
  match nearestPlayer env ps m.x m.y with
  | none => (m, k)
  | some p =>
    let r := aiMove env ext p dt now m k
    (clampMon w r.1, r.2)

/-- The `updateEnemies` loop (`for (let i = length-1; i >= 0; i--)`):
higher indices (the list tail) are processed first. -/
def updateEnemiesLoop (env : Env) (ext : Ext) (ps : Players) (w : World)
    (dt now : ℚ) : List Monster → ℕ → List Monster × ℕ
  | [], k => ([], k)
  | m :: rest, k =>
      let rec1 := updateEnemiesLoop env ext ps w dt now rest k
      let st := stepEnemy env ext ps w dt now m rec1.2
      (st.1 :: rec1.1, st.2)

-- Ability system (`function useAbility(room, p, type, now)`)

/-- The beam's monster sweep (`for (let i = monsters.length-1; ...)`),
returning the surviving monsters and the number of kills credited to the
caster. -/
def beamScan (env : Env) (x1 y1 x2 y2 : ℚ) : List Monster → List Monster × ℤ
  | [] => ([], 0)
  | m :: rest =>
      let r := beamScan env x1 y1 x2 y2 rest
      let ABx := x2 - x1
      let ABy := y2 - y1
      let t := max 0 (min 1 (((m.x - x1) * ABx + (m.y - y1) * ABy) / (ABx * ABx + ABy * ABy)))
      let Cx := x1 + ABx * t
      let Cy := y1 + ABy * t
      let d := distQ env m.x m.y Cx Cy
      if d ≤ m.radius + 18 then
        if m.hp - 2 ≤ 0 then (r.1, r.2 + 1)
        else ({ m with hp := m.hp - 2 } :: r.1, r.2)
      else (m :: r.1, r.2)

/-- `function useAbility(room, p, type, now)` — the source mutates the
player record in place; here the updated player is returned alongside the
room.  Unmatched `type` strings fall through the switch as a no-op. -/
def useAbility (env : Env) (ext : Ext) (room : Room) (p : Player) (type : String)
    (now : ℚ) (k : ℕ) : Room × Player × ℕ :=
  if type = "burst" then
    if now < p.abilityCd.burst then (room, p, k) else
    let p1 := { p with abilityCd := { (p.abilityCd) with burst := now + 3000 } }
    let base := env.atan2Q p.dirY p.dirX
    let num : ℕ := 9
    let span := env.piQ / (24 / 10)
    let mkB : ℕ → Bullet := fun i =>
      let t : ℚ := if num = 1 then 0 else ((i : ℚ) / ((num : ℚ) - 1)) * 2 - 1
      let a := base + t * span * (1 / 2)
      let dx := env.cosQ a
      let dy := env.sinQ a
      { id := ext.uuid (k + i), x := p.x + dx * 20, y := p.y + dy * 20,
        vx := dx * (BULLET_SPEED * (9 / 10)), vy := dy * (BULLET_SPEED * (9 / 10)),
        createdAt := now, ownerId := p.id, radius := BULLET_RADIUS + 1 }
    ({ room with bullets := room.bullets ++ (List.range num).map mkB }, p1, k + num)
  else if type = "dash" then
    if now < p.abilityCd.dash then (room, p, k) else
    let p1 := { p with
      abilityCd := { (p.abilityCd) with dash := now + 6000 }
      dashingUntil := now + 240
      iFramesUntil := now + 360
      x := p.x + p.dirX * 60
      y := p.y + p.dirY * 60 }
    ({ room with effects := room.effects ++
        [{ id := ext.uuid k, etype := "dash", x1 := p.x, y1 := p.y,
           x2 := p1.x, y2 := p1.y, untilMs := now + 220 }] }, p1, k + 1)
  else if type = "grenade" then
    if now < p.abilityCd.grenade then (room, p, k) else
    let p1 := { p with abilityCd := { (p.abilityCd) with grenade := now + 5000 } }
    let dx := p.dirX
    let dy := p.dirY
    ({ room with bombs := room.bombs ++
        [{ id := ext.uuid k, x := p.x + dx * 20, y := p.y + dy * 20,
           vx := dx * 260, vy := dy * 260, explodeAt := now + 900,
           radius := 120, ownerId := p.id }] }, p1, k + 1)
  else if type = "beam" then
    if now < p.abilityCd.beam then (room, p, k) else
    let p1 := { p with abilityCd := { (p.abilityCd) with beam := now + 8000 } }
    let x1 := p.x
    let y1 := p.y
    let x2 := p.x + p.dirX * 800
    let y2 := p.y + p.dirY * 800
    let (ms, kc) := beamScan env x1 y1 x2 y2 room.monsters
    let p2 := { p1 with kills := p1.kills + kc }
    ({ room with monsters := ms, effects := room.effects ++
        [{ id := ext.uuid k, etype := "beam", x1 := x1, y1 := y1,
           x2 := x2, y2 := y2, untilMs := now + 150 }] }, p2, k + 1)
  else (room, p, k)

-- Tick orchestrator pieces (`function updateRoom(room, dt, now)`)

/-- Player movement integration + auto-fire, one player
(`server.js` lines 423-435, loop body). -/
def movePlayersLoop (env : Env) (ext : Ext) (w : World) (dt now : ℚ) :
    Players → List Bullet → ℕ → Players × List Bullet × ℕ
  | [], bs, k => ([], bs, k)
  | (i, p) :: rest, bs, k =>
      let inputX : ℚ := (if p.right then 1 else 0) - (if p.left then 1 else 0)
      let inputY : ℚ := (if p.down then 1 else 0) - (if p.up then 1 else 0)
      let dir := normalizeQ env inputX inputY
      let dashBoost : ℚ := if now < p.dashingUntil then 32 / 10 else 1
      let speed := PLAYER_SPEED * p.buffs.speed * dashBoost
      let p1 := { p with
        x := clamp (p.x + dir.1 * speed * dt) p.radius (w.width - p.radius)
        y := clamp (p.y + dir.2 * speed * dt) p.radius (w.height - p.radius) }
      let ts := tryShoot env ext p1 now k
      let rec1 := movePlayersLoop env ext w dt now rest (bs ++ ts.2.1) ts.2.2
      ((i, ts.1) :: rec1.1, rec1.2.1, rec1.2.2)

/-- One "mini" pushed on a splitter kill (`server.js` lines 480-482):
raw `ENEMY_TYPES['mini']` stats, NOT rescaled by the population factor.
Draws: uuid (1), offset x (1), offset y (1). -/
def mkMini (ext : Ext) (m : Monster) (k : ℕ) : Monster :=
  { id := ext.uuid k, type := .mini,
    x := m.x + (ext.rand (k + 1) - 1 / 2) * 20,
    y := m.y + (ext.rand (k + 2) - 1 / 2) * 20,
    vx := 0, vy := 0, radius := (ENEMY_TYPES .mini).radius,
    hp := (ENEMY_TYPES .mini).baseHp, maxHp := (ENEMY_TYPES .mini).baseHp,
    baseSpeed := (ENEMY_TYPES .mini).baseSpeed, state := MState.empty }

/-- The two minis pushed when a killed monster is a splitter
(`if (m.type === 'splitter') { for (let k = 0; k < 2; k++) ... }`). -/
def splitDrops (ext : Ext) (m : Monster) (k : ℕ) : List Monster × ℕ :=
  if m.type = EType.splitter then ([mkMini ext m k, mkMini ext m (k + 3)], k + 6)
  else ([], k)

/-- Inner loop of bullet↔monster collision for one bullet
(`server.js` lines 472-489): monsters are scanned from the highest index
down, the scan stops at the first collision (`break`), the hit monster
loses 1 hp, the bullet owner is credited on a kill, and a killed splitter
appends two minis at the end of the array. -/
def bulletScan (ext : Ext) (b : Bullet) :
    List Monster → Players → ℕ → List Monster × Players × Bool × ℕ
  | [], ps, k => ([], ps, false, k)
  | m :: rest, ps, k =>
      let r := bulletScan ext b rest ps k
      if r.2.2.1 then (m :: r.1, r.2.1, true, r.2.2.2)
      else if circleCollide b.x b.y b.radius m.x m.y m.radius then
        if m.hp - 1 ≤ 0 then
          let ps2 := updateP r.2.1 b.ownerId (fun ow => { ow with kills := ow.kills + 1 })
          (r.1 ++ (splitDrops ext m r.2.2.2).1, ps2, true, (splitDrops ext m r.2.2.2).2)
        else ({ m with hp := m.hp - 1 } :: r.1, r.2.1, true, r.2.2.2)
      else (m :: r.1, r.2.1, r.2.2.1, r.2.2.2)

/-- Outer loop of bullet↔monster collisions (`server.js` lines 469-491):
bullets scanned from the highest index down; a hit bullet is removed. -/
def bulletsVsMonsters (ext : Ext) :
    List Bullet → List Monster → Players → ℕ → List Bullet × List Monster × Players × ℕ
  | [], ms, ps, k => ([], ms, ps, k)
  | b :: rest, ms, ps, k =>
      let r := bulletsVsMonsters ext rest ms ps k
      let sc := bulletScan ext b r.2.1 r.2.2.1 r.2.2.2
      ((if sc.2.2.1 then r.1 else b :: r.1), sc.1, sc.2.1, sc.2.2.2)

/-- One detonation's damage sweep over the monsters
(`server.js` lines 445-451): 3 damage inside `b.radius + m.radius`,
kills are spliced out — no splitter split here. -/
def bombDamage (env : Env) (b : Bomb) : List Monster → List Monster
  | [] => []
  | m :: rest =>
      let rest' := bombDamage env b rest
      if distQ env b.x b.y m.x m.y ≤ b.radius + m.radius then
        if m.hp - 3 ≤ 0 then rest' else { m with hp := m.hp - 3 } :: rest'
      else m :: rest'

/-- One bomb's movement and drag
(`b.x += b.vx * dt; b.y += b.vy * dt; b.vx *= 0.98; b.vy *= 0.98;`). -/
def moveBomb (dt : ℚ) (b : Bomb) : Bomb :=
  { b with x := b.x + b.vx * dt, y := b.y + b.vy * dt,
           vx := b.vx * (98 / 100), vy := b.vy * (98 / 100) }

/-- Bomb integration + detonation loop (`server.js` lines 441-455),
highest index first.  Draws: uuid (1) per detonation (explosion effect). -/
def bombsLoop (env : Env) (ext : Ext) (dt now : ℚ) :
    List Bomb → List Monster → List Effect → ℕ →
      List Bomb × List Monster × List Effect × ℕ
  | [], ms, es, k => ([], ms, es, k)
  | b :: rest, ms, es, k =>
      let r := bombsLoop env ext dt now rest ms es k
      let b1 := moveBomb dt b
      if now ≥ b1.explodeAt then
        (r.1, bombDamage env b1 r.2.1,
         r.2.2.1 ++ [{ id := ext.uuid r.2.2.2, etype := "explosion",
                       x := b1.x, y := b1.y, r := b1.radius, untilMs := now + 220 }],
         r.2.2.2 + 1)
      else (b1 :: r.1, r.2.1, r.2.2.1, r.2.2.2)

/-- One bullet's movement (`b.x += b.vx * dt; b.y += b.vy * dt;`). -/
def moveBullet (dt : ℚ) (b : Bullet) : Bullet :=
  { b with x := b.x + b.vx * dt, y := b.y + b.vy * dt }

/-- `const expired = now - b.createdAt > BULLET_LIFETIME_MS;` -/
def bulletExpired (now : ℚ) (b : Bullet) : Bool :=
  decide (now - b.createdAt > BULLET_LIFETIME_MS)

/-- `const outOfBounds = b.x < -50 || b.y < -50 || b.x > width+50 || b.y > height+50;` -/
def bulletOutOfBounds (w : World) (b : Bullet) : Bool :=
  decide (b.x < -50) || decide (b.y < -50) ||
  decide (b.x > w.width + 50) || decide (b.y > w.height + 50)

/-- Bullet movement and culling loop (`server.js` lines 459-466),
highest index first. -/
def moveCullBullets (dt now : ℚ) (w : World) : List Bullet → List Bullet
  | [] => []
  | b :: rest =>
      let rest' := moveCullBullets dt now w rest
      let b1 := moveBullet dt b
      if bulletExpired now b1 || bulletOutOfBounds w b1 then rest' else b1 :: rest'

/-- `function applyPowerup(p, type, now)` — immediate effect only; the
`setTimeout` buff reversals are modelled as separate registry steps
(`buffRevert`). -/
def applyPowerup (p : Player) (type : PType) (now : ℚ) : Player :=
  match type with
  | .speed => { p with buffs := { (p.buffs) with speed := min (18 / 10) (p.buffs.speed + 3 / 10) } }
  | .firerate => { p with buffs := { (p.buffs) with firerate := min 2 (p.buffs.firerate + 4 / 10) } }
  | .multishot => { p with buffs := { (p.buffs) with multishot := min 5 (p.buffs.multishot + 1) } }
  | .heal => { p with kills := p.kills + 1 }
  | .shield => { p with buffs := { (p.buffs) with shieldUntil := max p.buffs.shieldUntil (now + 6000) } }

/-- Inner powerup loop for one player (`server.js` lines 496-503),
highest index first: expired powerups are culled, a colliding powerup is
applied and removed. -/
def playerPowerups (now : ℚ) (p : Player) : List Powerup → Player × List Powerup
  | [] => (p, [])
  | u :: rest =>
      let r := playerPowerups now p rest
      if u.expiresAt ≤ now then (r.1, r.2)
      else if circleCollide r.1.x r.1.y r.1.radius u.x u.y u.r then
        (applyPowerup r.1 u.type now, r.2)
      else (r.1, u :: r.2)

/-- Player↔powerup step (`server.js` lines 494-504), players in
insertion order. -/
def powerupsStep (now : ℚ) : Players → List Powerup → Players × List Powerup
  | [], us => ([], us)
  | (i, p) :: rest, us =>
      let pp := playerPowerups now p us
      let r := powerupsStep now rest pp.2
      ((i, pp.1) :: r.1, r.2)

/-- Neutral wander integration (`server.js` lines 507-513), in array
order.  Draws on a wander re-decision: timer (1), direction (2). -/
def neutralWander (env : Env) (ext : Ext) (w : World) (dt : ℚ) :
    List Neutral → ℕ → List Neutral × ℕ
  | [], k => ([], k)
  | n :: rest, k =>
      let wt := n.wanderT - dt
      let a :=
        if wt ≤ 0 then
          let wt2 := 1 + ext.rand k * (5 / 2)
          let dir := normalizeQ env (ext.rand (k + 1) - 1 / 2) (ext.rand (k + 2) - 1 / 2)
          ({ n with wanderT := wt2, vx := dir.1 * 80, vy := dir.2 * 80 }, k + 3)
        else ({ n with wanderT := wt }, k)
      let n2 := { a.1 with
        x := clamp (a.1.x + a.1.vx * dt) a.1.r (w.width - a.1.r)
        y := clamp (a.1.y + a.1.vy * dt) a.1.r (w.height - a.1.r)
        vx := a.1.vx * (98 / 100)
        vy := a.1.vy * (98 / 100) }
      let r := neutralWander env ext w dt rest a.2
      (n2 :: r.1, r.2)

/-- Inner loop of bullet↔neutral collision for one bullet
(`server.js` lines 516-523), highest index first with `break`. -/
def neutralScan (b : Bullet) : List Neutral → List Neutral × Bool
  | [] => ([], false)
  | n :: rest =>
      let r := neutralScan b rest
      if r.2 then (n :: r.1, true)
      else if circleCollide b.x b.y b.radius n.x n.y n.r then
        ((if n.hp - 1 ≤ 0 then r.1 else { n with hp := n.hp - 1 } :: r.1), true)
      else (n :: r.1, false)

/-- Outer loop of bullet↔neutral collisions (`server.js` lines 514-524). -/
def bulletsVsNeutrals : List Bullet → List Neutral → List Bullet × List Neutral
  | [], ns => ([], ns)
  | b :: rest, ns =>
      let r := bulletsVsNeutrals rest ns
      let sc := neutralScan b r.2
      ((if sc.2 then r.1 else b :: r.1), sc.1)

/-- Player↔monster contact step (`server.js` lines 527-536): an
overlapping monster respawns the player (global-`WORLD` random position),
deducts one kill (floored at 0) and grants 1000ms of i-frames — all of it
only when neither i-frames nor shield are active. -/
def contactStep (ext : Ext) (monsters : List Monster) (now : ℚ) :
    Players → ℕ → Players × ℕ
  | [], k => ([], k)
  | (i, p) :: rest, k =>
      let collided := monsters.any (fun m => circleCollide p.x p.y p.radius m.x m.y m.radius)
      let a :=
        if collided ∧ now > p.iFramesUntil ∧ now > p.buffs.shieldUntil then
          ({ p with x := (randomInWorld ext k).1.1, y := (randomInWorld ext k).1.2,
                    kills := max 0 (p.kills - 1),
                    iFramesUntil := now + 1000 }, (randomInWorld ext k).2)
        else (p, k)
      let r := contactStep ext monsters now rest a.2
      ((i, a.1) :: r.1, r.2)

def MONSTER_SPAWN_INTERVAL_MS_BASE : ℚ := 2400

/-- The monster spawn gate interval of one tick:
`MONSTER_SPAWN_INTERVAL_MS_BASE / factor`. -/
def spawnInterval (room : Room) : ℚ :=
  MONSTER_SPAWN_INTERVAL_MS_BASE / (scaleForPlayers room).2

/-- `function updateRoom(room, dt, now)` — the full tick, in source order:
spawn gates, player movement + auto-fire, monster AI, bombs, effect
pruning, bullet movement/culling, bullet↔monster collisions, powerup
pickups, neutral wander, bullet↔neutral collisions, player↔monster
contact. -/
def updateRoom (env : Env) (ext : Ext) (room : Room) (dt now : ℚ) (k : ℕ) :
    Room × ℕ :=
  let a1 :=
    if now - room.lastSpawnAt > spawnInterval room then
      spawnMonster env ext { room with lastSpawnAt := now } none k
    else (room, k)
  let a2 :=
    if now - a1.1.lastPowerAt > 6000 then
      spawnPowerup ext { a1.1 with lastPowerAt := now } now a1.2
    else a1
  let a3 :=
    if now - a2.1.lastNeutralAt > 7000 then
      spawnNeutral ext { a2.1 with lastNeutralAt := now } a2.2
    else a2
  let mp := movePlayersLoop env ext a3.1.world dt now a3.1.players a3.1.bullets a3.2
  let ue := updateEnemiesLoop env ext mp.1 a3.1.world dt now a3.1.monsters mp.2.2
  let bo := bombsLoop env ext dt now a3.1.bombs ue.1 a3.1.effects ue.2
  let es2 := bo.2.2.1.filter (fun e => !decide (e.untilMs ≤ now))
  let bs2 := moveCullBullets dt now a3.1.world mp.2.1
  let bm := bulletsVsMonsters ext bs2 bo.2.1 mp.1 bo.2.2.2
  let pu := powerupsStep now bm.2.2.1 a3.1.powerups
  let nw := neutralWander env ext a3.1.world dt a3.1.neutrals bm.2.2.2
  let bn := bulletsVsNeutrals bm.1 nw.1
  let ct := contactStep ext bm.2.1 now pu.1 nw.2
  ({ a3.1 with players := ct.1, bullets := bn.1, monsters := bm.2.1, neutrals := bn.2,
               powerups := pu.2, bombs := bo.1, effects := es2 }, ct.2)

-- Room manager and connection handlers

/-- `const rooms = new Map();` — insertion-ordered association list. -/
abbrev Registry := List (String × Room)

def lookupRoom (reg : Registry) (rid : String) : Option Room :=
  match reg with
  | [] => none
  | (i, r) :: rest => if i = rid then some r else lookupRoom rest rid

/-- `rooms.set(rid, room)` — overwrite first occurrence or append. -/
def setRoom (reg : Registry) (rid : String) (room : Room) : Registry :=
  match reg with
  | [] => [(rid, room)]
  | (i, r) :: rest => if i = rid then (i, room) :: rest else (i, r) :: setRoom rest rid room

/-- `rooms.delete(rid)`. -/
def delRoom (reg : Registry) (rid : String) : Registry :=
  match reg with
  | [] => []
  | (i, r) :: rest => if i = rid then rest else (i, r) :: delRoom rest rid

/-- `function createRoom(roomId, settings)` — `settings.maxPlayers || 1`
and `settings.difficulty || 'Normal'` default falsy values. -/
def createRoom (roomId : String) (settings : Settings) : Room :=
  { id := roomId,
    settings := { maxPlayers := if settings.maxPlayers = 0 then 1 else settings.maxPlayers,
                  difficulty := if settings.difficulty = "" then "Normal" else settings.difficulty },
    players := [], bullets := [], monsters := [], neutrals := [], powerups := [],
    bombs := [], effects := [], lastSpawnAt := 0, lastPowerAt := 0,
    lastNeutralAt := 0, world := WORLD }

/-- `function getOrCreateRoom(roomId, settings)` — returns the possibly
extended registry and the room; an existing room's stored settings are
untouched, the incoming `settings` are only read on creation. -/
def getOrCreateRoom (reg : Registry) (roomId : String) (settings : Settings) :
    Registry × Room :=
  match lookupRoom reg roomId with
  | some room => (reg, room)
  | none =>
      let room := createRoom roomId settings
      (reg ++ [(roomId, room)], room)

/-- The reply the join handler emits. -/
inductive JoinReply where
  | denied (reason : String)
  | initMsg (id : String) (world : World) (roomId : String) (settings : Settings)
  | noneMsg
  deriving DecidableEq, Repr

/-- The `join` message handler (`server.js` lines 128-169).  Draws: spawn
position (2), colour hue (1). -/
def joinHandler (ext : Ext) (reg : Registry) (sockId roomId : String)
    (settings : Settings) (k : ℕ) : Registry × JoinReply × ℕ :=
  let gc := getOrCreateRoom reg roomId settings
  let reg1 := gc.1
  let room := gc.2
  if countPlayers room ≥ room.settings.maxPlayers then
    (reg1, .denied "Room full", k)
  else
    let spawn := (randomInWorld ext k).1
    let p : Player :=
      { id := sockId, x := spawn.1, y := spawn.2, dirX := 1, dirY := 0,
        up := false, down := false, left := false, right := false,
        shooting := false, lastShotAt := 0,
        color := ext.hsl ⌊ext.rand (k + 2) * 360⌋, kills := 0,
        radius := PLAYER_RADIUS,
        buffs := { speed := 1, firerate := 1, multishot := 1, shieldUntil := 0 },
        abilityCd := { burst := 0, dash := 0, grenade := 0, beam := 0 },
        dashingUntil := 0, iFramesUntil := 0 }
    (setRoom reg1 roomId { room with players := setP room.players sockId p },
     .initMsg sockId room.world roomId room.settings, k + 3)

/-- The `input` message; `angle = some a` models
`typeof data.angle === 'number' && isFinite(data.angle)`. -/
structure InputMsg where
  up : Bool
  down : Bool
  left : Bool
  right : Bool
  shooting : Bool
  angle : Option ℚ
  deriving DecidableEq, Repr

/-- The `input` message handler (`server.js` lines 171-185). -/
def inputHandler (env : Env) (reg : Registry) (roomId sockId : String)
    (msg : InputMsg) : Registry :=
  match lookupRoom reg roomId with
  | none => reg
  | some room =>
    match lookupP room.players sockId with
    | none => reg
    | some _ =>
      setRoom reg roomId { room with players := updateP room.players sockId (fun p =>
        let p1 := { p with up := msg.up, down := msg.down, left := msg.left,
                           right := msg.right, shooting := msg.shooting }
        match msg.angle with
        | some a => { p1 with dirX := env.cosQ a, dirY := env.sinQ a }
        | none => p1) }

/-- The `ability` message handler (`server.js` lines 187-193); the source
mutates the looked-up player in place, modelled by writing it back. -/
def abilityHandler (env : Env) (ext : Ext) (reg : Registry)
    (roomId sockId ty : String) (now : ℚ) (k : ℕ) : Registry × ℕ :=
  match lookupRoom reg roomId with
  | none => (reg, k)
  | some room =>
    match lookupP room.players sockId with
    | none => (reg, k)
    | some p =>
      let r := useAbility env ext room p ty now k
      (setRoom reg roomId { r.1 with players := setP r.1.players sockId r.2.1 }, r.2.2)

/-- The immediate part of the `disconnect` handler
(`server.js` lines 195-205): remove the player record and schedule the
grace-period check; the returned pair is the scheduled (room id, fire
time) of the `setTimeout`. -/
def disconnectHandler (reg : Registry) (roomId sockId : String) (now : ℚ) :
    Registry × Option (String × ℚ) :=
  match lookupRoom reg roomId with
  | none => (reg, none)
  | some room =>
      (setRoom reg roomId { room with players := delP room.players sockId },
       some (roomId, now + 10000))

/-- The grace-period `setTimeout` callback (`server.js` lines 199-204):
emptiness is re-validated when the timer fires. -/
def gcFire (reg : Registry) (roomId : String) : Registry :=
  match lookupRoom reg roomId with
  | none => reg
  | some r => if countPlayers r = 0 then delRoom reg r.id else reg

/-- The three `setTimeout` buff reversals scheduled by `applyPowerup`. -/
inductive BuffTimer where
  | speed | firerate | multishot
  deriving DecidableEq, Repr

def buffRevert (p : Player) : BuffTimer → Player
  | .speed => { p with buffs := { (p.buffs) with speed := max 1 (p.buffs.speed - 3 / 10) } }
  | .firerate => { p with buffs := { (p.buffs) with firerate := max 1 (p.buffs.firerate - 4 / 10) } }
  | .multishot => { p with buffs := { (p.buffs) with multishot := max 1 (p.buffs.multishot - 1) } }

/-- A buff-reversal timer firing while the player is still in the room
(if the player is gone the captured reference mutation is invisible). -/
def buffTimerFire (reg : Registry) (roomId sockId : String) (t : BuffTimer) : Registry :=
  match lookupRoom reg roomId with
  | none => reg
  | some room =>
      setRoom reg roomId { room with players := updateP room.players sockId (fun p => buffRevert p t) }

/-- The `setInterval` tick loop body over all rooms (`server.js` lines 554-564). -/
def tickAll (env : Env) (ext : Ext) (dt now : ℚ) :
    Registry → ℕ → Registry × ℕ
  | [], k => ([], k)
  | (rid, room) :: rest, k =>
      let r := updateRoom env ext room dt now k
      let rest' := tickAll env ext dt now rest r.2
      ((rid, r.1) :: rest'.1, rest'.2)

/-- All ways the registry evolves: message handlers, the disconnect
cleanup, the grace-period timer, buff-reversal timers and the tick loop. -/
inductive Step (env : Env) (ext : Ext) : Registry → Registry → Prop where
  | join (reg : Registry) (sockId roomId : String) (settings : Settings) (k : ℕ) :
      Step env ext reg (joinHandler ext reg sockId roomId settings k).1
  | inputMsg (reg : Registry) (roomId sockId : String) (msg : InputMsg) :
      Step env ext reg (inputHandler env reg roomId sockId msg)
  | abilityMsg (reg : Registry) (roomId sockId ty : String) (now : ℚ) (k : ℕ) :
      Step env ext reg (abilityHandler env ext reg roomId sockId ty now k).1
  | disconnect (reg : Registry) (roomId sockId : String) (now : ℚ) :
      Step env ext reg (disconnectHandler reg roomId sockId now).1
  | gc (reg : Registry) (roomId : String) :
      Step env ext reg (gcFire reg roomId)
  | buffTimer (reg : Registry) (roomId sockId : String) (t : BuffTimer) :
      Step env ext reg (buffTimerFire reg roomId sockId t)
  | tick (reg : Registry) (dt now : ℚ) (k : ℕ) :
      Step env ext reg (tickAll env ext dt now reg k).1

/-- Registry states reachable from server start (empty registry). -/
inductive Reachable (env : Env) (ext : Ext) : Registry → Prop where
  | init : Reachable env ext []
  | step {R R' : Registry} : Reachable env ext R → Step env ext R R' → Reachable env ext R'

-- Concrete instances used by witnesses and counterexamples

/-- A concrete float-library environment (taxicab hypot; all other
transcendentals constant).  All claim theorems are quantified over the
environment, so any instance may be used to evaluate them; the
counterexamples below only exercise it where its value is forced (e.g.
`hypot 0 0 = 0`, where every float library agrees). -/
def env0 : Env :=
  { sqrtQ := fun x => x, cosQ := fun _ => 0, sinQ := fun _ => 0,
    atan2Q := fun _ _ => 0, hypotQ := fun x y => |x| + |y|, piQ := 0 }

/-- A concrete draw environment (all `Math.random()` draws 0). -/
def ext0 : Ext := { rand := fun _ => 0, uuid := fun _ => "u", hsl := fun _ => "c" }

/-- A freshly-joined player template (the record built by the join
handler at spawn (100, 100)). -/
def p0 : Player :=
  { id := "p1", x := 100, y := 100, dirX := 1, dirY := 0,
    up := false, down := false, left := false, right := false,
    shooting := false, lastShotAt := 0, color := "c", kills := 0,
    radius := PLAYER_RADIUS,
    buffs := { speed := 1, firerate := 1, multishot := 1, shieldUntil := 0 },
    abilityCd := { burst := 0, dash := 0, grenade := 0, beam := 0 },
    dashingUntil := 0, iFramesUntil := 0 }

/-- A player holding an active shield until t=2000, standing at (100,100). -/
def pShield : Player :=
  { p0 with kills := 5, buffs := { speed := 1, firerate := 1, multishot := 1, shieldUntil := 2000 } }

/-- A player standing against the right world edge, facing right. -/
def pEdge : Player := { p0 with x := 2384, y := 900 }

/-- A chaser overlapping (100,100). -/
def mAt : Monster :=
  { id := "m1", type := .chaser, x := 100, y := 100, vx := 0, vy := 0,
    radius := 16, hp := 3, maxHp := 3, baseSpeed := 120, state := MState.empty }

/-- A splitter with 2 hp at (200,200). -/
def splitterM : Monster :=
  { id := "s1", type := .splitter, x := 200, y := 200, vx := 0, vy := 0,
    radius := 16, hp := 2, maxHp := 2, baseSpeed := 100, state := MState.empty }

/-- A bomb resting at (200,200) created at t=0 (`explodeAt = 900`). -/
def bombAt : Bomb :=
  { id := "b1", x := 200, y := 200, vx := 0, vy := 0, explodeAt := 900,
    radius := 120, ownerId := "p1" }

/-- A bullet at the origin, far from everything. -/
def bFar : Bullet :=
  { id := "b1", x := 0, y := 0, vx := 0, vy := 0, createdAt := 0,
    ownerId := "p1", radius := 4 }

/-- A room with one player `p0`. -/
def room0 : Room :=
  { id := "r1", settings := { maxPlayers := 2, difficulty := "Normal" },
    players := [("p1", p0)], bullets := [], monsters := [], neutrals := [],
    powerups := [], bombs := [], effects := [], lastSpawnAt := 0,
    lastPowerAt := 0, lastNeutralAt := 0, world := WORLD }

/-- A room with the edge player only. -/
def roomEdge : Room := { room0 with players := [("p1", pEdge)] }

/-- An empty room (no players) under key "r1". -/
def roomEmpty : Room := { room0 with players := [] }

/-- The player record the join handler creates under `ext0`'s draws
(spawn (0,0), colour "c"). -/
def pJoined : Player :=
  { id := "p1", x := 0, y := 0, dirX := 1, dirY := 0, up := false, down := false,
    left := false, right := false, shooting := false, lastShotAt := 0, color := "c",
    kills := 0, radius := PLAYER_RADIUS,
    buffs := { speed := 1, firerate := 1, multishot := 1, shieldUntil := 0 },
    abilityCd := { burst := 0, dash := 0, grenade := 0, beam := 0 },
    dashingUntil := 0, iFramesUntil := 0 }

/-- The room "r1" after a single join on a fresh registry. -/
def joinedRoom : Room :=
  { id := "r1", settings := { maxPlayers := 1, difficulty := "Normal" },
    players := [("p1", pJoined)], bullets := [], monsters := [], neutrals := [],
    powerups := [], bombs := [], effects := [], lastSpawnAt := 0, lastPowerAt := 0,
    lastNeutralAt := 0, world := WORLD }

-- Spec-side helpers (read off the spec's wording, for theorem statements)

/-- The per-player ready-at timestamp of an ability, by its type string. -/
def cdOf (p : Player) : String → ℚ
  | "burst" => p.abilityCd.burst
  | "dash" => p.abilityCd.dash
  | "grenade" => p.abilityCd.grenade
  | "beam" => p.abilityCd.beam
  | _ => 0

/-- The cooldown durations of the four abilities. -/
def cooldownOf : String → ℚ
  | "burst" => 3000
  | "dash" => 6000
  | "grenade" => 5000
  | "beam" => 8000
  | _ => 0

-- Theorems

/-- C8: for a room with player count `n ≥ 1` the population scaler yields
`factor = 1 + 0.35·(n−1)`; the monster population cap is `16 + 10·(n−1)`
(spawning is a no-op at or above it and succeeds below it); every spawned
monster has hp `round(baseHp · sqrt(factor))` (with `maxHp` equal to it)
and base speed `baseSpeed · (0.75 + 0.25·factor)`; and the monster spawn
gate interval is `2400 / factor`. -/
theorem c8_population_scaling (env : Env) (ext : Ext) (room : Room)
    (typeArg : Option EType) (k : ℕ) (n : ℕ)
    (hc : countPlayers room = n) (h1 : 1 ≤ n) :
    (scaleForPlayers room).2 = 1 + (35 / 100 : ℚ) * ((n : ℚ) - 1)
  ∧ (room.monsters.length ≥ 16 + 10 * (n - 1) →
       spawnMonster env ext room typeArg k = (room, k))
  ∧ (room.monsters.length < 16 + 10 * (n - 1) →
       ∃ m, (spawnMonster env ext room typeArg k).1.monsters = room.monsters ++ [m]
         ∧ m.hp = (roundQ ((ENEMY_TYPES m.type).baseHp *
             env.sqrtQ (1 + (35 / 100 : ℚ) * ((n : ℚ) - 1))) : ℚ)
         ∧ m.maxHp = m.hp
         ∧ m.baseSpeed = (ENEMY_TYPES m.type).baseSpeed *
             (75 / 100 + 25 / 100 * (1 + (35 / 100 : ℚ) * ((n : ℚ) - 1))))
  ∧ spawnInterval room = 2400 / (1 + (35 / 100 : ℚ) * ((n : ℚ) - 1)) := by
  have hmax : max 1 (countPlayers room) = n := by
    rw [hc]; exact Nat.max_eq_right h1
  have hs1 : (scaleForPlayers room).1 = n := by simp [scaleForPlayers, hmax]
  have hs2 : (scaleForPlayers room).2 = 1 + (35 / 100 : ℚ) * ((n : ℚ) - 1) := by
    simp [scaleForPlayers, hmax]
  refine ⟨hs2, ?_, ?_, ?_⟩
  · intro hge
    unfold spawnMonster
    rw [hs1]
    rw [if_pos (by unfold MONSTER_MAX_BASE; omega)]
  · intro hlt
    unfold spawnMonster
    rw [hs1]
    rw [if_neg (by unfold MONSTER_MAX_BASE; omega)]
    cases typeArg with
    | some t =>
        refine ⟨_, rfl, ?_, rfl, ?_⟩ <;> simp [hs2]
    | none =>
        refine ⟨_, rfl, ?_, rfl, ?_⟩ <;> simp [hs2]
  · simp [spawnInterval, MONSTER_SPAWN_INTERVAL_MS_BASE, hs2]

/-- Witness for C8 at the one-player room `room0`. -/
theorem c8_population_scaling_witness :
    (scaleForPlayers room0).2 = 1 + (35 / 100 : ℚ) * ((1 : ℚ) - 1) :=
  (c8_population_scaling env0 ext0 room0 none 0 1 (by decide) (by decide)).1

-- Association-list lemmas

theorem lookup_setRoom_self (reg : Registry) (rid : String) (r : Room) :
    lookupRoom (setRoom reg rid r) rid = some r := by
  induction reg with
  | nil => simp [setRoom, lookupRoom]
  | cons hd tl ih =>
      by_cases hk : hd.1 = rid
      · simp [setRoom, lookupRoom, hk]
      · simp only [setRoom, lookupRoom]
        rw [if_neg hk, ]
        simp only [lookupRoom]
        rw [if_neg hk]
        exact ih

theorem lookup_eq_none_of_not_mem (reg : Registry) (rid : String)
    (h : rid ∉ reg.map Prod.fst) : lookupRoom reg rid = none := by
  induction reg with
  | nil => simp [lookupRoom]
  | cons hd tl ih =>
      simp only [List.map_cons, List.mem_cons] at h
      push_neg at h
      simp only [lookupRoom]
      rw [if_neg ?_]
      · exact ih h.2
      · intro he; exact h.1 he.symm

theorem lookup_delRoom_self (reg : Registry) (rid : String)
    (hnd : (reg.map Prod.fst).Nodup) : lookupRoom (delRoom reg rid) rid = none := by
  induction reg with
  | nil => simp [delRoom, lookupRoom]
  | cons hd tl ih =>
      simp only [List.map_cons, List.nodup_cons] at hnd
      by_cases hk : hd.1 = rid
      · simp only [delRoom]
        rw [if_pos hk]
        exact lookup_eq_none_of_not_mem tl rid (hk ▸ hnd.1)
      · simp only [delRoom]
        rw [if_neg hk]
        simp only [lookupRoom]
        rw [if_neg hk]
        exact ih hnd.2

/-- C10: join requests naming an existing room never touch the room's
stored settings: `getOrCreateRoom` returns the stored room ignoring the
message's settings, and after any join against that room id the stored
settings are unchanged — later joiners cannot change capacity or
difficulty. -/
theorem c10_settings_fixed_at_creation (ext : Ext) (reg : Registry)
    (roomId : String) (room : Room) (h : lookupRoom reg roomId = some room) :
    (∀ s, getOrCreateRoom reg roomId s = (reg, room))
  ∧ (∀ sockId s k room',
       lookupRoom (joinHandler ext reg sockId roomId s k).1 roomId = some room' →
       room'.settings = room.settings) := by
  have hget : ∀ s, getOrCreateRoom reg roomId s = (reg, room) := by
    intro s; simp [getOrCreateRoom, h]
  refine ⟨hget, ?_⟩
  intro sockId s k room' hl
  by_cases hcap : countPlayers room ≥ room.settings.maxPlayers
  · simp only [joinHandler, hget, if_pos hcap] at hl
    rw [h] at hl
    injection hl with hl
    rw [← hl]
  · simp only [joinHandler, hget, if_neg hcap] at hl
    rw [lookup_setRoom_self] at hl
    injection hl with hl
    rw [← hl]

/-- Witness for C10 on the one-player room registry. -/
theorem c10_settings_fixed_at_creation_witness :
    getOrCreateRoom [("r1", room0)] "r1"
      { maxPlayers := 4, difficulty := "Insane" } = ([("r1", room0)], room0) :=
  (c10_settings_fixed_at_creation ext0 [("r1", room0)] "r1" room0 (by decide)).1
    { maxPlayers := 4, difficulty := "Insane" }

/-- C9: a disconnect schedules the grace check for `now + 10000`; when the
timer fires on a room that is still empty the room is removed from the
registry, and when the room has regained at least one player by fire time
the registry is left unchanged (emptiness is re-validated at fire time). -/
theorem c9_idle_room_grace (reg : Registry) (roomId sockId : String) (now : ℚ)
    (room : Room) (h : lookupRoom reg roomId = some room) (hid : room.id = roomId)
    (hnd : (reg.map Prod.fst).Nodup) :
    (disconnectHandler reg roomId sockId now).2 = some (roomId, now + 10000)
  ∧ (countPlayers room = 0 → lookupRoom (gcFire reg roomId) roomId = none)
  ∧ (1 ≤ countPlayers room → gcFire reg roomId = reg) := by
  refine ⟨?_, ?_, ?_⟩
  · simp [disconnectHandler, h]
  · intro h0
    simp only [gcFire, h, if_pos h0, hid]
    exact lookup_delRoom_self reg roomId hnd
  · intro h1
    simp only [gcFire, h]
    rw [if_neg (by omega)]

/-- Witness for C9: the grace timer firing on a still-empty room removes
it. -/
theorem c9_idle_room_grace_witness :
    lookupRoom (gcFire [("r1", roomEmpty)] "r1") "r1" = none :=
  (c9_idle_room_grace [("r1", roomEmpty)] "r1" "p1" 0 roomEmpty (by decide)
    (by decide) (by decide)).2.1 (by decide)

/-- C5: for each of the four abilities, a first invocation at a ready
time `t1` followed by a second invocation at `t2 < t1 + cooldown` leaves
the second invocation a complete no-op (same room, same player, cooldown
expiry still `t1 + cooldown`), while the first invocation produced its
single set of world mutations (exactly one bomb for grenade, exactly 9
bullets for burst). -/
theorem c5_ability_cooldown (env : Env) (ext : Ext) (room : Room) (p : Player)
    (ty : String) (t1 t2 : ℚ) (k k2 : ℕ)
    (hty : ty = "burst" ∨ ty = "dash" ∨ ty = "grenade" ∨ ty = "beam")
    (hready : cdOf p ty ≤ t1) (hwin : t2 < t1 + cooldownOf ty) :
    useAbility env ext (useAbility env ext room p ty t1 k).1
        (useAbility env ext room p ty t1 k).2.1 ty t2 k2
      = ((useAbility env ext room p ty t1 k).1,
         (useAbility env ext room p ty t1 k).2.1, k2)
  ∧ cdOf (useAbility env ext room p ty t1 k).2.1 ty = t1 + cooldownOf ty
  ∧ (ty = "grenade" →
       (useAbility env ext room p ty t1 k).1.bombs.length = room.bombs.length + 1)
  ∧ (ty = "burst" →
       (useAbility env ext room p ty t1 k).1.bullets.length = room.bullets.length + 9)
  := by
  rcases hty with h | h | h | h <;> subst h
  · have h1 : ¬ (t1 < p.abilityCd.burst) := not_lt.mpr (by simpa [cdOf] using hready)
    have h2 : t2 < t1 + 3000 := by simpa [cooldownOf] using hwin
    refine ⟨?_, ?_, ?_, ?_⟩
    · simp [useAbility, h1, h2]
    · simp [useAbility, h1, cdOf, cooldownOf]
    · intro hcon; simp at hcon
    · intro _; simp [useAbility, h1]
  · have h1 : ¬ (t1 < p.abilityCd.dash) := not_lt.mpr (by simpa [cdOf] using hready)
    have h2 : t2 < t1 + 6000 := by simpa [cooldownOf] using hwin
    refine ⟨?_, ?_, ?_, ?_⟩
    · simp [useAbility, h1, h2]
    · simp [useAbility, h1, cdOf, cooldownOf]
    · intro hcon; simp at hcon
    · intro hcon; simp at hcon
  · have h1 : ¬ (t1 < p.abilityCd.grenade) := not_lt.mpr (by simpa [cdOf] using hready)
    have h2 : t2 < t1 + 5000 := by simpa [cooldownOf] using hwin
    refine ⟨?_, ?_, ?_, ?_⟩
    · simp [useAbility, h1, h2]
    · simp [useAbility, h1, cdOf, cooldownOf]
    · intro _; simp [useAbility, h1]
    · intro hcon; simp at hcon
  · have h1 : ¬ (t1 < p.abilityCd.beam) := not_lt.mpr (by simpa [cdOf] using hready)
    have h2 : t2 < t1 + 8000 := by simpa [cooldownOf] using hwin
    refine ⟨?_, ?_, ?_, ?_⟩
    · simp [useAbility, h1, h2]
    · simp [useAbility, h1, cdOf, cooldownOf]
    · intro hcon; simp at hcon
    · intro hcon; simp at hcon

/-- Witness for C5: grenade fired at t=0 in `room0` by `p0`. -/
theorem c5_ability_cooldown_witness :
    (useAbility env0 ext0 room0 p0 "grenade" 0 0).1.bombs.length
      = room0.bombs.length + 1 :=
  (c5_ability_cooldown env0 ext0 room0 p0 "grenade" 0 1 0 0
    (Or.inr (Or.inr (Or.inl rfl))) (by norm_num [cdOf, p0])
    (by norm_num [cooldownOf])).2.2.1 rfl

/-- C2 counterexample: a player with an active shield (until t=2000)
overlapping a monster at tick time t=1000 is left with
`iFramesUntil = 0`, not `now + 1000 = 2000`: the contact step does NOT
refresh the invulnerability window when the shield is active, contrary to
the claim. -/
theorem c2_shield_refresh_cex :
    circleCollide pShield.x pShield.y pShield.radius mAt.x mAt.y mAt.radius = true
  ∧ (1000 : ℚ) < pShield.buffs.shieldUntil
  ∧ contactStep ext0 [mAt] 1000 [("p1", pShield)] 0 = ([("p1", pShield)], 0)
  ∧ pShield.iFramesUntil = 0
  ∧ ¬ (pShield.iFramesUntil = 1000 + 1000) := by
  norm_num [pShield, p0, mAt, circleCollide, contactStep, PLAYER_RADIUS]

/-- C2 (amended): a player whose shield is active (`shieldUntil` strictly
in the future) who overlaps a monster is left completely unchanged by the
player↔monster contact step — no position reset, no kill-counter change,
and also NO refresh of the invulnerability window (the code only sets
`iFramesUntil` inside the penalty branch, which the shield skips). -/
theorem c2_shield_contact_noop (ext : Ext) (ms : List Monster) (now : ℚ) :
    ∀ (ps : Players) (k : ℕ) (j : ℕ) (i : String) (p : Player),
      ps.get? j = some (i, p) → now < p.buffs.shieldUntil →
      ((contactStep ext ms now ps k).1).get? j = some (i, p) := by
  intro ps
  induction ps with
  | nil => intro k j i p h _; simp [List.get?] at h
  | cons hd tl ih =>
      intro k j i p hj hs
      obtain ⟨ihd, phd⟩ := hd
      cases j with
      | zero =>
          rw [List.get?_cons_zero] at hj
          injection hj with hj
          have h1 : ihd = i := congrArg Prod.fst hj
          have h2 : phd = p := congrArg Prod.snd hj
          subst h1
          subst h2
          have hcond : ¬(((ms.any fun m =>
              circleCollide phd.x phd.y phd.radius m.x m.y m.radius) = true)
              ∧ now > phd.iFramesUntil ∧ now > phd.buffs.shieldUntil) := by
            rintro ⟨-, -, h3⟩
            exact lt_asymm hs h3
          simp only [contactStep]
          rw [if_neg hcond]
          rfl
      | succ j' =>
          rw [List.get?_cons_succ] at hj
          by_cases hcond : (((ms.any fun m =>
              circleCollide phd.x phd.y phd.radius m.x m.y m.radius) = true)
              ∧ now > phd.iFramesUntil ∧ now > phd.buffs.shieldUntil)
          · simp only [contactStep]
            rw [if_pos hcond]
            exact ih (k + 2) j' i p hj hs
          · simp only [contactStep]
            rw [if_neg hcond]
            exact ih k j' i p hj hs

/-- Witness for the amended C2 at the shielded-player scenario. -/
theorem c2_shield_contact_noop_witness :
    ((contactStep ext0 [mAt] 1000 [("p1", pShield)] 0).1).get? 0
      = some ("p1", pShield) :=
  c2_shield_contact_noop ext0 [mAt] 1000 [("p1", pShield)] 0 0 "p1" pShield
    rfl (by norm_num [pShield, p0])

/-- The bomb damage sweep visits each monster exactly once and is
element-independent: it equals a `filterMap` over the monsters. -/
theorem bombDamage_eq_filterMap (env : Env) (bb : Bomb) (ms : List Monster) :
    bombDamage env bb ms = ms.filterMap (fun m =>
      if distQ env bb.x bb.y m.x m.y ≤ bb.radius + m.radius then
        (if m.hp - 3 ≤ 0 then none else some { m with hp := m.hp - 3 })
      else some m) := by
  induction ms with
  | nil => simp [bombDamage]
  | cons m rest ih =>
      simp only [bombDamage, List.filterMap_cons, ih]
      by_cases h1 : distQ env bb.x bb.y m.x m.y ≤ bb.radius + m.radius
      · rw [if_pos h1, if_pos h1]
        by_cases h2 : m.hp - 3 ≤ 0
        · rw [if_pos h2, if_pos h2]
        · rw [if_neg h2, if_neg h2]
      · rw [if_neg h1, if_neg h1]

/-- C6: a bomb with `explodeAt = T + 900` and blast radius 120 does
nothing before `T + 900` (it just moves); at the first tick with
`now ≥ T + 900` it is removed, an explosion effect expiring at
`now + 220` is pushed, and every monster whose centre lies within
`120 + monsterRadius` of the bomb's (moved) position takes exactly 3
damage — monsters dropping to hp ≤ 0 are removed — while every monster
farther away is untouched. -/
theorem c6_bomb_detonation (env : Env) (ext : Ext) (dt now T : ℚ) (b : Bomb)
    (ms : List Monster) (es : List Effect) (k : ℕ)
    (hexp : b.explodeAt = T + 900) (hrad : b.radius = 120) :
    (now < T + 900 →
      bombsLoop env ext dt now [b] ms es k = ([moveBomb dt b], ms, es, k))
  ∧ (now ≥ T + 900 →
      bombsLoop env ext dt now [b] ms es k =
        ([], bombDamage env (moveBomb dt b) ms,
         es ++ [{ id := ext.uuid k, etype := "explosion",
                  x := (moveBomb dt b).x, y := (moveBomb dt b).y,
                  r := b.radius, untilMs := now + 220 }], k + 1))
  ∧ bombDamage env (moveBomb dt b) ms = ms.filterMap (fun m =>
      if distQ env (moveBomb dt b).x (moveBomb dt b).y m.x m.y ≤ 120 + m.radius then
        (if m.hp - 3 ≤ 0 then none else some { m with hp := m.hp - 3 })
      else some m) := by
  have hexp1 : (moveBomb dt b).explodeAt = T + 900 := by simp [moveBomb, hexp]
  have hrad1 : (moveBomb dt b).radius = b.radius := by simp [moveBomb]
  refine ⟨?_, ?_, ?_⟩
  · intro hlt
    have hng : ¬ (now ≥ (moveBomb dt b).explodeAt) := by
      rw [hexp1]; exact not_le.mpr hlt
    simp only [bombsLoop]
    rw [if_neg hng]
  · intro hge
    have hg : now ≥ (moveBomb dt b).explodeAt := by rw [hexp1]; exact hge
    simp only [bombsLoop]
    rw [if_pos hg]
    simp [moveBomb]
  · rw [bombDamage_eq_filterMap]
    apply List.filterMap_congr
    intro m _
    rw [hrad1, hrad]

/-- Witness for C6: the resting bomb `bombAt` (created at T=0) detonating
at a tick at t=900 next to the chaser `mAt` (far outside the blast has no
members here; `mAt` is inside and survives with 3 less hp is checked by
the equality to `bombDamage`). -/
theorem c6_bomb_detonation_witness :
    bombsLoop env0 ext0 0 900 [bombAt] [mAt] [] 0 =
      ([], bombDamage env0 (moveBomb 0 bombAt) [mAt],
       [] ++ [{ id := ext0.uuid 0, etype := "explosion",
                x := (moveBomb 0 bombAt).x, y := (moveBomb 0 bombAt).y,
                r := bombAt.radius, untilMs := 900 + 220 }], 0 + 1) :=
  (c6_bomb_detonation env0 ext0 0 900 0 bombAt [mAt] [] 0
    (by norm_num [bombAt]) (by norm_num [bombAt])).2.1 (by norm_num)

/-- A bullet that collides with no monster leaves the scan untouched. -/
theorem bulletScan_no_collide (ext : Ext) (b : Bullet) (ms : List Monster)
    (ps : Players) (k : ℕ)
    (h : ∀ m ∈ ms, circleCollide b.x b.y b.radius m.x m.y m.radius = false) :
    bulletScan ext b ms ps k = (ms, ps, false, k) := by
  induction ms with
  | nil => rfl
  | cons m rest ih =>
      have hm := h m (List.mem_cons_self m rest)
      have hrest := ih (fun m' hm' => h m' (List.mem_cons_of_mem m hm'))
      simp only [bulletScan, hrest]
      simp [hm]

/-- A bullet whose first (highest-index) collision is a killing blow on
monster `m` removes `m`, credits the owner one kill, appends `m`'s split
drops and stops scanning: monsters before `m` are untouched. -/
theorem bulletScan_kill (ext : Ext) (b : Bullet) (pre post : List Monster)
    (m : Monster) (ps : Players) (k : ℕ)
    (hcol : circleCollide b.x b.y b.radius m.x m.y m.radius = true)
    (hkill : m.hp - 1 ≤ 0)
    (hpost : ∀ m' ∈ post, circleCollide b.x b.y b.radius m'.x m'.y m'.radius = false) :
    bulletScan ext b (pre ++ m :: post) ps k =
      (pre ++ post ++ (splitDrops ext m k).1,
       updateP ps b.ownerId (fun ow => { ow with kills := ow.kills + 1 }),
       true, (splitDrops ext m k).2) := by
  induction pre with
  | nil =>
      simp only [List.nil_append]
      have hrest := bulletScan_no_collide ext b post ps k hpost
      simp only [bulletScan, hrest]
      simp [hcol, hkill]
  | cons q pre' ih =>
      simp only [List.cons_append]
      simp only [bulletScan, ih]
      simp

/-- C1 counterexample: a bomb detonation kills the splitter `splitterM`
(2 hp, 3 damage, inside the blast) yet the room's monster collection
afterwards is empty — no "mini" monsters are added, contradicting the
claim that any damage source yields exactly two minis. -/
theorem c1_splitter_bomb_cex :
    splitterM.type = EType.splitter
  ∧ splitterM.hp - 3 ≤ 0
  ∧ distQ env0 bombAt.x bombAt.y splitterM.x splitterM.y
      ≤ bombAt.radius + splitterM.radius
  ∧ (bombsLoop env0 ext0 0 900 [bombAt] [splitterM] [] 0).2.1 = [] := by
  refine ⟨rfl, by norm_num [splitterM], ?_, ?_⟩
  · norm_num [splitterM, bombAt, distQ, env0]
  · norm_num [bombsLoop, bombDamage, moveBomb, distQ, env0, bombAt, splitterM]

/-- C1 (amended): a splitter killed by a BULLET yields exactly two minis
with mini's base stats (radius 10, hp 1 = maxHp, baseSpeed 170) appended
to the room's monsters; splitters killed by a bomb or a beam are removed
without spawning anything — every monster surviving those sweeps has the
type of some pre-existing monster, and none is added. -/
theorem c1_splitter_minis (env : Env) (ext : Ext) :
    (∀ (m : Monster) (k : ℕ), m.type = EType.splitter →
        (splitDrops ext m k).1 = [mkMini ext m k, mkMini ext m (k + 3)]
      ∧ ∀ mm ∈ (splitDrops ext m k).1, mm.type = EType.mini ∧ mm.radius = 10
          ∧ mm.hp = 1 ∧ mm.maxHp = 1 ∧ mm.baseSpeed = 170)
  ∧ (∀ (b : Bullet) (pre post : List Monster) (m : Monster) (ps : Players) (k : ℕ),
        m.type = EType.splitter → m.hp - 1 ≤ 0 →
        circleCollide b.x b.y b.radius m.x m.y m.radius = true →
        (∀ m' ∈ post, circleCollide b.x b.y b.radius m'.x m'.y m'.radius = false) →
        (bulletScan ext b (pre ++ m :: post) ps k).1
          = pre ++ post ++ [mkMini ext m k, mkMini ext m (k + 3)])
  ∧ (∀ (bb : Bomb) (ms : List Monster) (m' : Monster),
        m' ∈ bombDamage env bb ms → ∃ m ∈ ms, m'.type = m.type)
  ∧ (∀ (x1 y1 x2 y2 : ℚ) (ms : List Monster) (m' : Monster),
        m' ∈ (beamScan env x1 y1 x2 y2 ms).1 → ∃ m ∈ ms, m'.type = m.type) := by
  refine ⟨?_, ?_, ?_, ?_⟩
  · intro m k hty
    constructor
    · simp [splitDrops, hty]
    · intro mm hmm
      simp [splitDrops, hty] at hmm
      rcases hmm with h | h <;> subst h <;>
        simp [mkMini, ENEMY_TYPES]
  · intro b pre post m ps k hty hkill hcol hpost
    rw [bulletScan_kill ext b pre post m ps k hcol hkill hpost]
    simp [splitDrops, hty]
  · intro bb ms m' hm'
    rw [bombDamage_eq_filterMap] at hm'
    rw [List.mem_filterMap] at hm'
    obtain ⟨m, hm, hf⟩ := hm'
    refine ⟨m, hm, ?_⟩
    by_cases h1 : distQ env bb.x bb.y m.x m.y ≤ bb.radius + m.radius
    · rw [if_pos h1] at hf
      by_cases h2 : m.hp - 3 ≤ 0
      · rw [if_pos h2] at hf; cases hf
      · rw [if_neg h2] at hf
        injection hf with hf
        rw [← hf]
    · rw [if_neg h1] at hf
      injection hf with hf
      rw [← hf]
  · intro x1 y1 x2 y2 ms
    induction ms with
    | nil => intro m' hm'; simp [beamScan] at hm'
    | cons m rest ih =>
        intro m' hm'
        rcases hb : beamScan env x1 y1 x2 y2 rest with ⟨rest', kc⟩
        simp only [beamScan, hb] at hm'
        split_ifs at hm' with h1 h2
        · obtain ⟨mr, hmr, hty⟩ := ih m' (hb ▸ hm')
          exact ⟨mr, List.mem_cons_of_mem m hmr, hty⟩
        · rcases List.mem_cons.mp hm' with h | h
          · exact ⟨m, List.mem_cons_self m rest, by rw [h]⟩
          · obtain ⟨mr, hmr, hty⟩ := ih m' (hb ▸ h)
            exact ⟨mr, List.mem_cons_of_mem m hmr, hty⟩
        · rcases List.mem_cons.mp hm' with h | h
          · exact ⟨m, List.mem_cons_self m rest, by rw [h]⟩
          · obtain ⟨mr, hmr, hty⟩ := ih m' (hb ▸ h)
            exact ⟨mr, List.mem_cons_of_mem m hmr, hty⟩

/-- Witness for the amended C1: the concrete splitter's drops are the two
minis. -/
theorem c1_splitter_minis_witness :
    (splitDrops ext0 splitterM 0).1 = [mkMini ext0 splitterM 0, mkMini ext0 splitterM 3] :=
  ((c1_splitter_minis env0 ext0).1 splitterM 0 rfl).1

theorem clamp_mem (v lo hi : ℚ) (h : lo ≤ hi) :
    lo ≤ clamp v lo hi ∧ clamp v lo hi ≤ hi :=
  ⟨le_max_left lo _, max_le h (min_le_left hi v)⟩

/-- Any nonempty room yields a nearest-player target (the initial best
distance is `Infinity`). -/
theorem nearestPlayer_isSome (env : Env) (ps : Players) (hne : ps ≠ [])
    (fx fy : ℚ) : ∃ p, nearestPlayer env ps fx fy = some p := by
  match ps with
  | [] => exact absurd rfl hne
  | pr :: rest =>
      have key : ∀ (l : List (String × Player)) (acc : Player × ℚ),
          ∃ w, l.foldl (fun acc pr =>
            let d := distQ env fx fy pr.2.x pr.2.y
            match acc with
            | none => some (pr.2, d)
            | some (q, best) => if d < best then some (pr.2, d) else some (q, best))
            (some acc) = some w := by
        intro l
        induction l with
        | nil => intro acc; exact ⟨acc, rfl⟩
        | cons hd tl ih =>
            intro acc
            simp only [List.foldl_cons]
            by_cases hlt : distQ env fx fy hd.2.x hd.2.y < acc.2
            · obtain ⟨w, hw⟩ := ih (hd.2, distQ env fx fy hd.2.x hd.2.y)
              exact ⟨w, by simp only [if_pos hlt]; exact hw⟩
            · obtain ⟨w, hw⟩ := ih acc
              exact ⟨w, by simp only [if_neg hlt]; exact hw⟩
      obtain ⟨w, hw⟩ := key rest (pr.2, distQ env fx fy pr.2.x pr.2.y)
      refine ⟨w.1, ?_⟩
      simp only [nearestPlayer, List.foldl_cons]
      rw [hw]
      rfl

/-- The AI switch never changes a monster's radius. -/
theorem aiMove_radius (env : Env) (ext : Ext) (p : Player) (dt now : ℚ)
    (m : Monster) (k : ℕ) : ((aiMove env ext p dt now m k).1).radius = m.radius := by
  cases hty : m.type <;> simp only [aiMove, hty] <;> split_ifs <;> rfl

/-- `tryShoot` only stamps `lastShotAt` on the player: position and
radius are untouched. -/
theorem tryShoot_frame (env : Env) (ext : Ext) (p : Player) (now : ℚ) (k : ℕ) :
    ((tryShoot env ext p now k).1).x = p.x
  ∧ ((tryShoot env ext p now k).1).y = p.y
  ∧ ((tryShoot env ext p now k).1).radius = p.radius := by
  simp only [tryShoot]
  split_ifs <;> exact ⟨rfl, rfl, rfl⟩

/-- C4 counterexample: the player `pEdge` sits exactly on the right world
bound (`x = width − radius`); invoking dash (off cooldown, facing right)
displaces them to `x = 2444 > width − radius`: the dash's 60-unit
displacement is NOT clamped to world bounds. -/
theorem c4_dash_unclamped_cex :
    pEdge.x = WORLD.width - pEdge.radius
  ∧ (useAbility env0 ext0 roomEdge pEdge "dash" 0 0).2.1.x = 2444
  ∧ ¬ ((useAbility env0 ext0 roomEdge pEdge "dash" 0 0).2.1.x
        ≤ roomEdge.world.width - (useAbility env0 ext0 roomEdge pEdge "dash" 0 0).2.1.radius) := by
  refine ⟨by norm_num [pEdge, p0, WORLD, PLAYER_RADIUS], ?_, ?_⟩ <;>
    · simp [useAbility, pEdge, p0, roomEdge, room0]
      norm_num [WORLD, PLAYER_RADIUS]

/-- C4 (amended): after player movement integration every player lies
within bounds clamped by its radius; after the monster AI step every
monster does, provided the room has at least one player (with no players
the monster — and its clamp — are skipped); after the neutral wander step
every neutral does.  The dash ability is the exception: its 60-unit
displacement is not clamped (see the counterexample) and the player is
only re-clamped by the next tick's movement integration. -/
theorem c4_positions_in_bounds (env : Env) (ext : Ext) (w : World) (dt now : ℚ) :
    (∀ (ps : Players) (bs : List Bullet) (k : ℕ),
      (∀ pr ∈ ps, pr.2.radius ≤ w.width - pr.2.radius
          ∧ pr.2.radius ≤ w.height - pr.2.radius) →
      ∀ pr' ∈ (movePlayersLoop env ext w dt now ps bs k).1,
        pr'.2.radius ≤ pr'.2.x ∧ pr'.2.x ≤ w.width - pr'.2.radius
          ∧ pr'.2.radius ≤ pr'.2.y ∧ pr'.2.y ≤ w.height - pr'.2.radius)
  ∧ (∀ (ps : Players) (ms : List Monster) (k : ℕ), ps ≠ [] →
      (∀ m ∈ ms, m.radius ≤ w.width - m.radius ∧ m.radius ≤ w.height - m.radius) →
      ∀ m' ∈ (updateEnemiesLoop env ext ps w dt now ms k).1,
        m'.radius ≤ m'.x ∧ m'.x ≤ w.width - m'.radius
          ∧ m'.radius ≤ m'.y ∧ m'.y ≤ w.height - m'.radius)
  ∧ (∀ (ns : List Neutral) (k : ℕ),
      (∀ n ∈ ns, n.r ≤ w.width - n.r ∧ n.r ≤ w.height - n.r) →
      ∀ n' ∈ (neutralWander env ext w dt ns k).1,
        n'.r ≤ n'.x ∧ n'.x ≤ w.width - n'.r
          ∧ n'.r ≤ n'.y ∧ n'.y ≤ w.height - n'.r) := by
  refine ⟨?_, ?_, ?_⟩
  · intro ps
    induction ps with
    | nil => intro bs k _ pr' h; simp [movePlayersLoop] at h
    | cons hd tl ih =>
        intro bs k hrad pr' hmem
        obtain ⟨i, p⟩ := hd
        rcases h1 : tryShoot env ext
            { p with
              x := clamp (p.x + (normalizeQ env
                  ((if p.right then 1 else 0) - (if p.left then 1 else 0))
                  ((if p.down then 1 else 0) - (if p.up then 1 else 0))).1 *
                  (PLAYER_SPEED * p.buffs.speed * (if now < p.dashingUntil then 32 / 10 else 1)) * dt)
                p.radius (w.width - p.radius)
              y := clamp (p.y + (normalizeQ env
                  ((if p.right then 1 else 0) - (if p.left then 1 else 0))
                  ((if p.down then 1 else 0) - (if p.up then 1 else 0))).2 *
                  (PLAYER_SPEED * p.buffs.speed * (if now < p.dashingUntil then 32 / 10 else 1)) * dt)
                p.radius (w.height - p.radius) } now k with ⟨p2, nbs, k1⟩
        simp only [movePlayersLoop, h1] at hmem
        rcases List.mem_cons.mp hmem with hh | hh
        · subst hh
          have hpr := hrad (i, p) (List.mem_cons_self _ _)
          have hfx := congrArg (fun q => q.x) (congrArg Prod.fst h1)
          have hfy := congrArg (fun q => q.y) (congrArg Prod.fst h1)
          have hfr := congrArg (fun q => q.radius) (congrArg Prod.fst h1)
          obtain ⟨hx1, hy1, hr1⟩ := tryShoot_frame env ext _ now k
          rw [h1] at hx1 hy1 hr1
          simp only at hx1 hy1 hr1
          refine ⟨?_, ?_, ?_, ?_⟩
          · rw [hx1, hr1]; exact (clamp_mem _ _ _ hpr.1).1
          · rw [hx1, hr1]; exact (clamp_mem _ _ _ hpr.1).2
          · rw [hy1, hr1]; exact (clamp_mem _ _ _ hpr.2).1
          · rw [hy1, hr1]; exact (clamp_mem _ _ _ hpr.2).2
        · exact ih (bs ++ nbs) k1 (fun pr hpr => hrad pr (List.mem_cons_of_mem _ hpr)) pr' hh
  · intro ps ms
    induction ms with
    | nil => intro k _ _ m' h; simp [updateEnemiesLoop] at h
    | cons m rest ih =>
        intro k hne hrad m' hmem
        rcases h1 : updateEnemiesLoop env ext ps w dt now rest k with ⟨rest', k1⟩
        rcases h2 : stepEnemy env ext ps w dt now m k1 with ⟨mstep, k2⟩
        simp only [updateEnemiesLoop, h1, h2] at hmem
        rcases List.mem_cons.mp hmem with hh | hh
        · subst hh
          obtain ⟨p, hp⟩ := nearestPlayer_isSome env ps hne m.x m.y
          have hrm := hrad m (List.mem_cons_self _ _)
          have h2' : clampMon w (aiMove env ext p dt now m k1).1 = m' := by
            have := congrArg Prod.fst h2
            simpa [stepEnemy, hp] using this
          have hra : ((aiMove env ext p dt now m k1).1).radius = m.radius :=
            aiMove_radius env ext p dt now m k1
          rw [← h2']
          refine ⟨?_, ?_, ?_, ?_⟩ <;> simp only [clampMon, hra]
          · exact (clamp_mem _ _ _ hrm.1).1
          · exact (clamp_mem _ _ _ hrm.1).2
          · exact (clamp_mem _ _ _ hrm.2).1
          · exact (clamp_mem _ _ _ hrm.2).2
        · refine ih k hne (fun mm hmm => hrad mm (List.mem_cons_of_mem _ hmm)) m' ?_
          rw [h1]
          exact hh
  · intro ns
    induction ns with
    | nil => intro k _ n' h; simp [neutralWander] at h
    | cons n rest ih =>
        intro k hrad n' hmem
        have hrn := hrad n (List.mem_cons_self _ _)
        by_cases hwt : n.wanderT - dt ≤ 0
        · simp only [neutralWander, if_pos hwt] at hmem
          rcases List.mem_cons.mp hmem with hh | hh
          · subst hh
            refine ⟨?_, ?_, ?_, ?_⟩ <;> simp only
            · exact (clamp_mem _ _ _ hrn.1).1
            · exact (clamp_mem _ _ _ hrn.1).2
            · exact (clamp_mem _ _ _ hrn.2).1
            · exact (clamp_mem _ _ _ hrn.2).2
          · exact ih (k + 3) (fun nn hnn => hrad nn (List.mem_cons_of_mem _ hnn)) n' hh
        · simp only [neutralWander, if_neg hwt] at hmem
          rcases List.mem_cons.mp hmem with hh | hh
          · subst hh
            refine ⟨?_, ?_, ?_, ?_⟩ <;> simp only
            · exact (clamp_mem _ _ _ hrn.1).1
            · exact (clamp_mem _ _ _ hrn.1).2
            · exact (clamp_mem _ _ _ hrn.2).1
            · exact (clamp_mem _ _ _ hrn.2).2
          · exact ih k (fun nn hnn => hrad nn (List.mem_cons_of_mem _ hnn)) n' hh

/-- Witness for the amended C4: all players of the one-player room are in
bounds after the movement integration. -/
theorem c4_positions_in_bounds_witness :
    ∀ pr' ∈ (movePlayersLoop env0 ext0 WORLD 0 0 [("p1", p0)] [] 0).1,
      pr'.2.radius ≤ pr'.2.x ∧ pr'.2.x ≤ WORLD.width - pr'.2.radius
        ∧ pr'.2.radius ≤ pr'.2.y ∧ pr'.2.y ≤ WORLD.height - pr'.2.radius :=
  (c4_positions_in_bounds env0 ext0 WORLD 0 0).1 [("p1", p0)] [] 0
    (by norm_num [p0, WORLD, PLAYER_RADIUS])

/-- The bullet cull loop equals moving every bullet then keeping exactly
those neither expired nor out of bounds. -/
theorem moveCullBullets_eq (dt now : ℚ) (w : World) (bs : List Bullet) :
    moveCullBullets dt now w bs =
      (bs.map (moveBullet dt)).filter
        (fun b => !(bulletExpired now b || bulletOutOfBounds w b)) := by
  induction bs with
  | nil => rfl
  | cons b rest ih =>
      simp only [moveCullBullets, List.map_cons, List.filter_cons, ih]
      by_cases h : (bulletExpired now (moveBullet dt b)
          || bulletOutOfBounds w (moveBullet dt b)) = true
      · simp [h]
      · simp [h]

/-- A scan that reports no hit left everything unchanged, and indeed no
monster collided. -/
theorem bulletScan_not_hit (ext : Ext) (b : Bullet) :
    ∀ (ms : List Monster) (ps : Players) (k : ℕ),
    (bulletScan ext b ms ps k).2.2.1 = false →
    (∀ m ∈ ms, circleCollide b.x b.y b.radius m.x m.y m.radius = false)
  ∧ bulletScan ext b ms ps k = (ms, ps, false, k) := by
  intro ms
  induction ms with
  | nil => intro ps k _; exact ⟨by simp, rfl⟩
  | cons m rest ih =>
      intro ps k hf
      rcases hr : bulletScan ext b rest ps k with ⟨ms1, ps1, hit, k1⟩
      cases hit with
      | true =>
          exfalso
          simp only [bulletScan, hr] at hf
          simp at hf
      | false =>
          obtain ⟨hnc, hid⟩ := ih ps k (by rw [hr])
          by_cases hcol : circleCollide b.x b.y b.radius m.x m.y m.radius = true
          · exfalso
            simp only [bulletScan, hid] at hf
            rw [hcol] at hf
            simp only [Bool.false_eq_true, if_false, if_true] at hf
            split_ifs at hf <;> simp at hf
          · have hcol' : circleCollide b.x b.y b.radius m.x m.y m.radius = false := by
              revert hcol; cases circleCollide b.x b.y b.radius m.x m.y m.radius <;> simp
            constructor
            · intro mm hmm
              rcases List.mem_cons.mp hmm with hh | hh
              · rw [hh]; exact hcol'
              · exact hnc mm hh
            · simp only [bulletScan, hid]
              simp [hcol']

/-- A scan that reports a hit damaged exactly one monster: the monster
list splits as `pre ++ m :: post` with no collision in `post` (scanned
first), `m` colliding, and the result either removes `m` (killing blow:
hp − 1 ≤ 0, owner credited one kill, split drops appended) or just
decrements `m`'s hp by one; everything else is untouched. -/
theorem bulletScan_hit (ext : Ext) (b : Bullet) :
    ∀ (ms : List Monster) (ps : Players) (k : ℕ),
    (bulletScan ext b ms ps k).2.2.1 = true →
    ∃ pre m post, ms = pre ++ m :: post
      ∧ circleCollide b.x b.y b.radius m.x m.y m.radius = true
      ∧ (∀ m' ∈ post, circleCollide b.x b.y b.radius m'.x m'.y m'.radius = false)
      ∧ ((m.hp - 1 ≤ 0 ∧
            bulletScan ext b ms ps k =
              (pre ++ post ++ (splitDrops ext m k).1,
               updateP ps b.ownerId (fun ow => { ow with kills := ow.kills + 1 }),
               true, (splitDrops ext m k).2))
         ∨ (¬ m.hp - 1 ≤ 0 ∧
            bulletScan ext b ms ps k =
              (pre ++ { m with hp := m.hp - 1 } :: post, ps, true, k))) := by
  intro ms
  induction ms with
  | nil => intro ps k h; simp [bulletScan] at h
  | cons m rest ih =>
      intro ps k hh
      by_cases hhit : (bulletScan ext b rest ps k).2.2.1 = true
      · obtain ⟨pre, mm, post, hms, hcol, hpost, hres⟩ := ih ps k hhit
        refine ⟨m :: pre, mm, post, by rw [hms, List.cons_append], hcol, hpost, ?_⟩
        rcases hres with ⟨hkill, heq⟩ | ⟨hnk, heq⟩
        · left
          refine ⟨hkill, ?_⟩
          simp only [bulletScan, heq]
          simp
        · right
          refine ⟨hnk, ?_⟩
          simp only [bulletScan, heq]
          simp
      · have hhit' : (bulletScan ext b rest ps k).2.2.1 = false := by
          revert hhit; cases (bulletScan ext b rest ps k).2.2.1 <;> simp
        obtain ⟨hnc, hid⟩ := bulletScan_not_hit ext b rest ps k hhit'
        by_cases hcol : circleCollide b.x b.y b.radius m.x m.y m.radius = true
        · refine ⟨[], m, rest, by simp, hcol, hnc, ?_⟩
          by_cases hkill : m.hp - 1 ≤ 0
          · left
            refine ⟨hkill, ?_⟩
            simp only [bulletScan, hid]
            simp [hcol, hkill]
          · right
            refine ⟨hkill, ?_⟩
            simp only [bulletScan, hid]
            simp [hcol, hkill]
        · exfalso
          have hcol' : circleCollide b.x b.y b.radius m.x m.y m.radius = false := by
            revert hcol; cases circleCollide b.x b.y b.radius m.x m.y m.radius <;> simp
          simp only [bulletScan, hid] at hh
          simp [hcol'] at hh

/-- A neutral scan reports a hit exactly when some neutral collides. -/
theorem neutralScan_hit_iff (b : Bullet) : ∀ (ns : List Neutral),
    (neutralScan b ns).2 = true ↔
      ∃ n ∈ ns, circleCollide b.x b.y b.radius n.x n.y n.r = true := by
  intro ns
  induction ns with
  | nil => simp [neutralScan]
  | cons n rest ih =>
      rcases hr : neutralScan b rest with ⟨ns1, hit⟩
      cases hit with
      | true =>
          simp only [neutralScan, hr]
          simp only [if_true]
          constructor
          · intro _
            obtain ⟨n', hn', hc⟩ := ih.mp (by rw [hr])
            exact ⟨n', List.mem_cons_of_mem _ hn', hc⟩
          · intro _; trivial
      | false =>
          simp only [neutralScan, hr]
          by_cases hcol : circleCollide b.x b.y b.radius n.x n.y n.r = true
          · simp only [hcol, if_true, Bool.false_eq_true, if_false]
            constructor
            · intro _; exact ⟨n, List.mem_cons_self _ _, hcol⟩
            · intro _; trivial
          · have hcol' : circleCollide b.x b.y b.radius n.x n.y n.r = false := by
              revert hcol; cases circleCollide b.x b.y b.radius n.x n.y n.r <;> simp
            simp only [hcol', Bool.false_eq_true, if_false]
            constructor
            · intro hfalse; simp at hfalse
            · intro hex
              rcases hex with ⟨n', hn', hc⟩
              rcases List.mem_cons.mp hn' with hh | hh
              · rw [hh] at hc; rw [hc] at hcol'; cases hcol'
              · exfalso
                have := ih.mpr ⟨n', hh, hc⟩
                rw [hr] at this
                simp at this

/-- C7: (1) the cull step removes a bullet exactly when, after this
tick's movement, its age exceeds 1200ms or it lies more than 50 units
outside world bounds; (2) a bullet colliding with no monster changes
nothing; (3) a hit bullet damages exactly one monster (hp − 1, owner
credited on a kill); (4) in the collision step the bullet is kept exactly
when its scan reported no hit; (5) likewise against neutrals, where a hit
is reported exactly when some neutral collides. -/
theorem c7_bullet_lifecycle (ext : Ext) :
    (∀ (dt now : ℚ) (w : World) (bs : List Bullet),
      moveCullBullets dt now w bs =
        (bs.map (moveBullet dt)).filter
          (fun b => !(bulletExpired now b || bulletOutOfBounds w b)))
  ∧ (∀ (b : Bullet) (ms : List Monster) (ps : Players) (k : ℕ),
      (∀ m ∈ ms, circleCollide b.x b.y b.radius m.x m.y m.radius = false) →
      bulletScan ext b ms ps k = (ms, ps, false, k))
  ∧ (∀ (b : Bullet) (ms : List Monster) (ps : Players) (k : ℕ),
      (bulletScan ext b ms ps k).2.2.1 = true →
      ∃ pre m post, ms = pre ++ m :: post
        ∧ circleCollide b.x b.y b.radius m.x m.y m.radius = true
        ∧ (∀ m' ∈ post, circleCollide b.x b.y b.radius m'.x m'.y m'.radius = false)
        ∧ ((m.hp - 1 ≤ 0 ∧
              bulletScan ext b ms ps k =
                (pre ++ post ++ (splitDrops ext m k).1,
                 updateP ps b.ownerId (fun ow => { ow with kills := ow.kills + 1 }),
                 true, (splitDrops ext m k).2))
           ∨ (¬ m.hp - 1 ≤ 0 ∧
              bulletScan ext b ms ps k =
                (pre ++ { m with hp := m.hp - 1 } :: post, ps, true, k))))
  ∧ (∀ (b : Bullet) (ms : List Monster) (ps : Players) (k : ℕ),
      bulletsVsMonsters ext [b] ms ps k =
        ((if (bulletScan ext b ms ps k).2.2.1 then [] else [b]),
         (bulletScan ext b ms ps k).1, (bulletScan ext b ms ps k).2.1,
         (bulletScan ext b ms ps k).2.2.2))
  ∧ (∀ (b : Bullet) (ns : List Neutral),
      ((neutralScan b ns).2 = true ↔
        ∃ n ∈ ns, circleCollide b.x b.y b.radius n.x n.y n.r = true)
    ∧ bulletsVsNeutrals [b] ns =
        ((if (neutralScan b ns).2 then [] else [b]), (neutralScan b ns).1)) := by
  refine ⟨moveCullBullets_eq, bulletScan_no_collide ext, bulletScan_hit ext, ?_, ?_⟩
  · intro b ms ps k
    rcases hs : bulletScan ext b ms ps k with ⟨ms2, ps2, hit, k2⟩
    simp only [bulletsVsMonsters, hs]
  · intro b ns
    refine ⟨neutralScan_hit_iff b ns, ?_⟩
    rcases hs : neutralScan b ns with ⟨ns2, hit⟩
    simp only [bulletsVsNeutrals, hs]

/-- Witness for C7: a far-away bullet's scan over one monster reports no
hit and changes nothing. -/
theorem c7_bullet_lifecycle_witness :
    bulletScan ext0 bFar [mAt] [("p1", p0)] 0 = ([mAt], [("p1", p0)], false, 0) :=
  (c7_bullet_lifecycle ext0).2.1 bFar [mAt] [("p1", p0)] 0
    (by intro m hm
        simp only [List.mem_singleton] at hm
        subst hm
        norm_num [circleCollide, mAt, bFar])

-- Length and frame lemmas feeding the capacity invariant (C3)

theorem setP_length_le (ps : Players) (pid : String) (p : Player) :
    (setP ps pid p).length ≤ ps.length + 1 := by
  induction ps with
  | nil => simp [setP]
  | cons hd tl ih =>
      simp only [setP]
      split_ifs <;> simp only [List.length_cons] <;> omega

theorem setP_length_of_mem (ps : Players) (pid : String) (q p : Player)
    (h : lookupP ps pid = some q) : (setP ps pid p).length = ps.length := by
  induction ps with
  | nil => simp [lookupP] at h
  | cons hd tl ih =>
      simp only [setP, lookupP] at h ⊢
      split_ifs at h ⊢ with hk
      · simp
      · simp only [List.length_cons]
        rw [ih h]

theorem updateP_length (ps : Players) (pid : String) (f : Player → Player) :
    (updateP ps pid f).length = ps.length := by
  induction ps with
  | nil => rfl
  | cons hd tl ih =>
      simp only [updateP]
      split_ifs <;> simp only [List.length_cons] <;> rw [ih]

theorem delP_length_le (ps : Players) (pid : String) :
    (delP ps pid).length ≤ ps.length := by
  induction ps with
  | nil => simp [delP]
  | cons hd tl ih =>
      simp only [delP]
      split_ifs <;> simp only [List.length_cons] <;> omega

theorem lookupP_frame (ps qs : Players) (pid : String) (h : ps = qs) :
    lookupP ps pid = lookupP qs pid := by rw [h]

theorem movePlayersLoop_length (env : Env) (ext : Ext) (w : World) (dt now : ℚ) :
    ∀ (ps : Players) (bs : List Bullet) (k : ℕ),
    ((movePlayersLoop env ext w dt now ps bs k).1).length = ps.length := by
  intro ps
  induction ps with
  | nil => intro bs k; rfl
  | cons hd tl ih =>
      intro bs k
      obtain ⟨i, p⟩ := hd
      simp only [movePlayersLoop, List.length_cons]
      rw [ih]

theorem bulletScan_players_length (ext : Ext) (b : Bullet) :
    ∀ (ms : List Monster) (ps : Players) (k : ℕ),
    ((bulletScan ext b ms ps k).2.1).length = ps.length := by
  intro ms
  induction ms with
  | nil => intro ps k; rfl
  | cons m rest ih =>
      intro ps k
      simp only [bulletScan]
      split_ifs <;> simp only [updateP_length, ih]

theorem bulletsVsMonsters_players_length (ext : Ext) :
    ∀ (bs : List Bullet) (ms : List Monster) (ps : Players) (k : ℕ),
    ((bulletsVsMonsters ext bs ms ps k).2.2.1).length = ps.length := by
  intro bs
  induction bs with
  | nil => intro ms ps k; rfl
  | cons b rest ih =>
      intro ms ps k
      simp only [bulletsVsMonsters]
      rw [bulletScan_players_length, ih]

theorem powerupsStep_length (now : ℚ) :
    ∀ (ps : Players) (us : List Powerup),
    ((powerupsStep now ps us).1).length = ps.length := by
  intro ps
  induction ps with
  | nil => intro us; rfl
  | cons hd tl ih =>
      intro us
      obtain ⟨i, p⟩ := hd
      simp only [powerupsStep, List.length_cons]
      rw [ih]

theorem contactStep_length (ext : Ext) (ms : List Monster) (now : ℚ) :
    ∀ (ps : Players) (k : ℕ),
    ((contactStep ext ms now ps k).1).length = ps.length := by
  intro ps
  induction ps with
  | nil => intro k; rfl
  | cons hd tl ih =>
      intro k
      obtain ⟨i, p⟩ := hd
      simp only [contactStep, List.length_cons]
      rw [ih]

theorem spawnMonster_players (env : Env) (ext : Ext) (room : Room)
    (t : Option EType) (k : ℕ) :
    ((spawnMonster env ext room t k).1).players = room.players := by
  simp only [spawnMonster]
  split_ifs <;> rfl

theorem spawnMonster_settings (env : Env) (ext : Ext) (room : Room)
    (t : Option EType) (k : ℕ) :
    ((spawnMonster env ext room t k).1).settings = room.settings := by
  simp only [spawnMonster]
  split_ifs <;> rfl

theorem spawnPowerup_players (ext : Ext) (room : Room) (now : ℚ) (k : ℕ) :
    ((spawnPowerup ext room now k).1).players = room.players := by
  simp only [spawnPowerup]
  split_ifs <;> rfl

theorem spawnPowerup_settings (ext : Ext) (room : Room) (now : ℚ) (k : ℕ) :
    ((spawnPowerup ext room now k).1).settings = room.settings := by
  simp only [spawnPowerup]
  split_ifs <;> rfl

theorem spawnNeutral_players (ext : Ext) (room : Room) (k : ℕ) :
    ((spawnNeutral ext room k).1).players = room.players := by
  simp only [spawnNeutral]
  split_ifs <;> rfl

theorem spawnNeutral_settings (ext : Ext) (room : Room) (k : ℕ) :
    ((spawnNeutral ext room k).1).settings = room.settings := by
  simp only [spawnNeutral]
  split_ifs <;> rfl

theorem useAbility_players (env : Env) (ext : Ext) (room : Room) (p : Player)
    (ty : String) (now : ℚ) (k : ℕ) :
    ((useAbility env ext room p ty now k).1).players = room.players := by
  simp only [useAbility]
  split_ifs <;> rfl

theorem useAbility_settings (env : Env) (ext : Ext) (room : Room) (p : Player)
    (ty : String) (now : ℚ) (k : ℕ) :
    ((useAbility env ext room p ty now k).1).settings = room.settings := by
  simp only [useAbility]
  split_ifs <;> rfl

/-- The tick preserves each room's player count and settings: no tick
step adds or removes player records or rewrites settings. -/
theorem updateRoom_frame (env : Env) (ext : Ext) (room : Room) (dt now : ℚ) (k : ℕ) :
    ((updateRoom env ext room dt now k).1).players.length = room.players.length
  ∧ ((updateRoom env ext room dt now k).1).settings = room.settings := by
  have h1 : ((if now - room.lastSpawnAt > spawnInterval room then
        spawnMonster env ext { room with lastSpawnAt := now } none k
      else (room, k)).1).players = room.players
    ∧ ((if now - room.lastSpawnAt > spawnInterval room then
        spawnMonster env ext { room with lastSpawnAt := now } none k
      else (room, k)).1).settings = room.settings := by
    split_ifs
    · exact ⟨by rw [spawnMonster_players], by rw [spawnMonster_settings]⟩
    · exact ⟨rfl, rfl⟩
  generalize hA1 : (if now - room.lastSpawnAt > spawnInterval room then
      spawnMonster env ext { room with lastSpawnAt := now } none k
    else (room, k)) = A1 at h1 ⊢
  have h2 : ((if now - A1.1.lastPowerAt > 6000 then
        spawnPowerup ext { A1.1 with lastPowerAt := now } now A1.2
      else A1).1).players = room.players
    ∧ ((if now - A1.1.lastPowerAt > 6000 then
        spawnPowerup ext { A1.1 with lastPowerAt := now } now A1.2
      else A1).1).settings = room.settings := by
    split_ifs
    · constructor
      · rw [spawnPowerup_players]; exact h1.1
      · rw [spawnPowerup_settings]; exact h1.2
    · exact h1
  generalize hA2 : (if now - A1.1.lastPowerAt > 6000 then
      spawnPowerup ext { A1.1 with lastPowerAt := now } now A1.2
    else A1) = A2 at h2 ⊢
  have h3 : ((if now - A2.1.lastNeutralAt > 7000 then
        spawnNeutral ext { A2.1 with lastNeutralAt := now } A2.2
      else A2).1).players = room.players
    ∧ ((if now - A2.1.lastNeutralAt > 7000 then
        spawnNeutral ext { A2.1 with lastNeutralAt := now } A2.2
      else A2).1).settings = room.settings := by
    split_ifs
    · constructor
      · rw [spawnNeutral_players]; exact h2.1
      · rw [spawnNeutral_settings]; exact h2.2
    · exact h2
  generalize hA3 : (if now - A2.1.lastNeutralAt > 7000 then
      spawnNeutral ext { A2.1 with lastNeutralAt := now } A2.2
    else A2) = A3 at h3 ⊢
  simp only [updateRoom, hA1, hA2, hA3]
  constructor
  · rw [contactStep_length, powerupsStep_length, bulletsVsMonsters_players_length,
        movePlayersLoop_length, h3.1]
  · exact h3.2

theorem mem_setRoom (reg : Registry) (rid : String) (room : Room) :
    ∀ x ∈ setRoom reg rid room, x ∈ reg ∨ x = (rid, room) := by
  induction reg with
  | nil => intro x hx; simp [setRoom] at hx; right; exact hx
  | cons hd tl ih =>
      intro x hx
      simp only [setRoom] at hx
      split_ifs at hx with hk
      · rcases List.mem_cons.mp hx with h | h
        · right; rw [h, ← hk]
        · left; exact List.mem_cons_of_mem _ h
      · rcases List.mem_cons.mp hx with h | h
        · left; rw [h]; exact List.mem_cons_self _ _
        · rcases ih x h with h2 | h2
          · left; exact List.mem_cons_of_mem _ h2
          · right; exact h2

theorem mem_delRoom (reg : Registry) (rid : String) :
    ∀ x ∈ delRoom reg rid, x ∈ reg := by
  induction reg with
  | nil => intro x hx; simp [delRoom] at hx
  | cons hd tl ih =>
      intro x hx
      simp only [delRoom] at hx
      split_ifs at hx with hk
      · exact List.mem_cons_of_mem _ hx
      · rcases List.mem_cons.mp hx with h | h
        · rw [h]; exact List.mem_cons_self _ _
        · exact List.mem_cons_of_mem _ (ih x h)

theorem lookupRoom_mem (reg : Registry) (rid : String) (room : Room)
    (h : lookupRoom reg rid = some room) : (rid, room) ∈ reg := by
  induction reg with
  | nil => simp [lookupRoom] at h
  | cons hd tl ih =>
      simp only [lookupRoom] at h
      split_ifs at h with hk
      · injection h with h
        rw [← hk, ← h]
        exact List.mem_cons_self _ _
      · exact List.mem_cons_of_mem _ (ih h)

theorem mem_tickAll (env : Env) (ext : Ext) (dt now : ℚ) :
    ∀ (reg : Registry) (k : ℕ) (x : String × Room),
    x ∈ (tickAll env ext dt now reg k).1 →
    ∃ room k2, (x.1, room) ∈ reg ∧ x.2 = (updateRoom env ext room dt now k2).1 := by
  intro reg
  induction reg with
  | nil => intro k x hx; simp [tickAll] at hx
  | cons hd tl ih =>
      intro k x hx
      obtain ⟨rid, room⟩ := hd
      simp only [tickAll] at hx
      rcases List.mem_cons.mp hx with h | h
      · exact ⟨room, k, by rw [h]; exact List.mem_cons_self _ _, by rw [h]⟩
      · obtain ⟨room2, k2, hmem, heq⟩ := ih _ x h
        exact ⟨room2, k2, List.mem_cons_of_mem _ hmem, heq⟩

/-- Every step of the system preserves the per-room capacity invariant
`countPlayers ≤ settings.maxPlayers`. -/
theorem step_preserves_cap (env : Env) (ext : Ext) {R R' : Registry}
    (h : Step env ext R R')
    (hI : ∀ pr ∈ R, countPlayers pr.2 ≤ pr.2.settings.maxPlayers) :
    ∀ pr ∈ R', countPlayers pr.2 ≤ pr.2.settings.maxPlayers := by
  cases h with
  | join sockId roomId settings k =>
      intro pr hpr
      cases hl : lookupRoom R roomId with
      | some room0 =>
          have hg : getOrCreateRoom R roomId settings = (R, room0) := by
            simp [getOrCreateRoom, hl]
          by_cases hcap : countPlayers room0 ≥ room0.settings.maxPlayers
          · simp only [joinHandler, hg, if_pos hcap] at hpr
            exact hI pr hpr
          · simp only [joinHandler, hg, if_neg hcap] at hpr
            rcases mem_setRoom _ _ _ pr hpr with hin | heq
            · exact hI pr hin
            · rw [heq]
              simp only [countPlayers]
              have hle := setP_length_le room0.players sockId
                { id := sockId, x := (randomInWorld ext k).1.1, y := (randomInWorld ext k).1.2,
                  dirX := 1, dirY := 0, up := false, down := false, left := false,
                  right := false, shooting := false, lastShotAt := 0,
                  color := ext.hsl ⌊ext.rand (k + 2) * 360⌋, kills := 0,
                  radius := PLAYER_RADIUS,
                  buffs := { speed := 1, firerate := 1, multishot := 1, shieldUntil := 0 },
                  abilityCd := { burst := 0, dash := 0, grenade := 0, beam := 0 },
                  dashingUntil := 0, iFramesUntil := 0 }
              have hlt : countPlayers room0 < room0.settings.maxPlayers := by omega
              simp only [countPlayers] at hlt
              omega
      | none =>
          have hg : getOrCreateRoom R roomId settings =
              (R ++ [(roomId, createRoom roomId settings)], createRoom roomId settings) := by
            simp [getOrCreateRoom, hl]
          have hmax : 1 ≤ (createRoom roomId settings).settings.maxPlayers := by
            simp only [createRoom]
            split_ifs <;> omega
          have hcap : ¬ (countPlayers (createRoom roomId settings) ≥
              (createRoom roomId settings).settings.maxPlayers) := by
            simp only [countPlayers, createRoom, List.length_nil]
            simp only [createRoom] at hmax
            omega
          simp only [joinHandler, hg, if_neg hcap] at hpr
          rcases mem_setRoom _ _ _ pr hpr with hin | heq
          · rcases List.mem_append.mp hin with hh | hh
            · exact hI pr hh
            · simp only [List.mem_singleton] at hh
              rw [hh]
              simp only [countPlayers, createRoom, List.length_nil]
              omega
          · rw [heq]
            simp only [countPlayers, createRoom, setP, List.length_singleton]
            simp only [createRoom] at hmax
            exact hmax
  | inputMsg roomId sockId msg =>
      intro pr hpr
      cases hl : lookupRoom R roomId with
      | none => simp only [inputHandler, hl] at hpr; exact hI pr hpr
      | some room =>
          cases hp : lookupP room.players sockId with
          | none => simp only [inputHandler, hl, hp] at hpr; exact hI pr hpr
          | some q =>
              simp only [inputHandler, hl, hp] at hpr
              rcases mem_setRoom _ _ _ pr hpr with hin | heq
              · exact hI pr hin
              · rw [heq]
                have := hI (roomId, room) (lookupRoom_mem R roomId room hl)
                simpa [countPlayers, updateP_length] using this
  | abilityMsg roomId sockId ty now k =>
      intro pr hpr
      cases hl : lookupRoom R roomId with
      | none => simp only [abilityHandler, hl] at hpr; exact hI pr hpr
      | some room =>
          cases hp : lookupP room.players sockId with
          | none => simp only [abilityHandler, hl, hp] at hpr; exact hI pr hpr
          | some q =>
              simp only [abilityHandler, hl, hp] at hpr
              rcases mem_setRoom _ _ _ pr hpr with hin | heq
              · exact hI pr hin
              · rw [heq]
                have hIr := hI (roomId, room) (lookupRoom_mem R roomId room hl)
                have hpl : ((useAbility env ext room q ty now k).1).players = room.players :=
                  useAbility_players env ext room q ty now k
                have hst : ((useAbility env ext room q ty now k).1).settings = room.settings :=
                  useAbility_settings env ext room q ty now k
                simp only [countPlayers, hst]
                have hlp : lookupP ((useAbility env ext room q ty now k).1).players sockId = some q := by
                  rw [hpl]; exact hp
                rw [setP_length_of_mem _ _ _ _ hlp, hpl]
                exact hIr
  | disconnect roomId sockId now =>
      intro pr hpr
      cases hl : lookupRoom R roomId with
      | none => simp only [disconnectHandler, hl] at hpr; exact hI pr hpr
      | some room =>
          simp only [disconnectHandler, hl] at hpr
          rcases mem_setRoom _ _ _ pr hpr with hin | heq
          · exact hI pr hin
          · rw [heq]
            have hIr := hI (roomId, room) (lookupRoom_mem R roomId room hl)
            simp only [countPlayers] at hIr ⊢
            have := delP_length_le room.players sockId
            omega
  | gc roomId =>
      intro pr hpr
      cases hl : lookupRoom R roomId with
      | none => simp only [gcFire, hl] at hpr; exact hI pr hpr
      | some room =>
          simp only [gcFire, hl] at hpr
          split_ifs at hpr
          · exact hI pr (mem_delRoom _ _ pr hpr)
          · exact hI pr hpr
  | buffTimer roomId sockId t =>
      intro pr hpr
      cases hl : lookupRoom R roomId with
      | none => simp only [buffTimerFire, hl] at hpr; exact hI pr hpr
      | some room =>
          simp only [buffTimerFire, hl] at hpr
          rcases mem_setRoom _ _ _ pr hpr with hin | heq
          · exact hI pr hin
          · rw [heq]
            have := hI (roomId, room) (lookupRoom_mem R roomId room hl)
            simpa [countPlayers, updateP_length] using this
  | tick dt now k =>
      intro pr hpr
      obtain ⟨room, k2, hmem, heq⟩ := mem_tickAll env ext dt now R k pr hpr
      have hIr := hI (pr.1, room) hmem
      have hf := updateRoom_frame env ext room dt now k2
      simp only [countPlayers] at hIr ⊢
      rw [heq, hf.1, hf.2]
      exact hIr

/-- C3: in every reachable registry state, every room's player count is
at most its configured `maxPlayers`; and a join request against a room
whose player count equals its `maxPlayers` is denied with "Room full"
and leaves the registry (hence all room state) unchanged. -/
theorem c3_capacity (env : Env) (ext : Ext) (R : Registry)
    (h : Reachable env ext R) :
    (∀ pr ∈ R, countPlayers pr.2 ≤ pr.2.settings.maxPlayers)
  ∧ (∀ (sockId roomId : String) (s : Settings) (k : ℕ) (room : Room),
       lookupRoom R roomId = some room →
       countPlayers room = room.settings.maxPlayers →
       joinHandler ext R sockId roomId s k = (R, .denied "Room full", k)) := by
  constructor
  · induction h with
    | init => intro pr hpr; simp at hpr
    | @step R1 R2 _ hstep ih => exact step_preserves_cap env ext hstep ih
  · intro sockId roomId s k room hl hcap
    have hg : getOrCreateRoom R roomId s = (R, room) := by
      simp [getOrCreateRoom, hl]
    simp only [joinHandler, hg]
    rw [if_pos (by omega)]

/-- Witness for C3: the room reached by a single join on the empty
registry satisfies the capacity bound. -/
theorem c3_capacity_witness :
    countPlayers joinedRoom ≤ joinedRoom.settings.maxPlayers :=
  (c3_capacity env0 ext0 _
    (Reachable.step Reachable.init
      (Step.join [] "p1" "r1" { maxPlayers := 1, difficulty := "Normal" } 0))).1
    ("r1", joinedRoom)
    (by norm_num [joinHandler, getOrCreateRoom, lookupRoom, createRoom, setRoom,
        setP, countPlayers, randomInWorld, ext0, WORLD, joinedRoom, pJoined,
        PLAYER_RADIUS])

end Arena
